import Mathlib

/-!
# Verification of the gscene scene-lifecycle engine

A shallow embedding of the gscene library (manager.go, scene.go, the
drawer-based scene variant with `InitContext`, the lazy `simpleDrawer`
variant, and the accumulator-based `FrameLimiter`).

Application callbacks (Controller.Init / Controller.Update / Object.Init /
Object.Update) are modelled by a small command language `Cmd`; the library
entry points interpret those commands over an explicit `World` state.
Go panics are modelled by an `Option Panic` component threaded through every
operation (`none` = normal return); `panic(stopUpdate)` and `recover` become
the `Panic.stopUpdate` value and the explicit case analysis at the update
boundary.  Every operation also returns a list of `Ev` events recording, in
order, the observable callback invocations of the run.

Objects and graphics are identified by numeric ids; their mutable state
(the `disposed` flag read by `IsDisposed`, and the object's update program)
lives in per-world association lists, mirroring the fact that Go objects are
shared mutable references: a flag toggled mid-pass is seen by the in-place
filter loop when it reaches that object.
-/

namespace Gscene

/-- A Go panic value: the library's private `stopUpdate` sentinel, an
application panic with a payload, a nil-pointer dereference, or the
configuration panic raised by `Scene.setDrawer`. -/
inductive Panic where
  | stopUpdate
  | userFail (n : Nat)
  | nilDeref
  | configError
deriving DecidableEq, Repr

/-- Commands an application callback can execute against the library:
do nothing, panic, toggle an object's disposed flag, call
`Scene.AddObject` (the new object's Init and Update behaviours are the two
program arguments), call `Scene.AddGraphics`, or call `Manager.ChangeScene`
(the new controller's Init and Update behaviours are the two program
arguments). -/
inductive Cmd where
  | nop
  | fail (n : Nat)
  | setDisposed (oid : Nat) (b : Bool)
  | addObject (oid : Nat) (initProg : List Cmd) (updateProg : List Cmd)
  | addGraphics (gid : Nat) (layer : Nat)
  | changeScene (initProg : List Cmd) (updateProg : List Cmd)
deriving Repr

/-- The mutable per-object state: the self-reported disposed flag and the
object's Update behaviour. -/
structure ObjData where
  disposed : Bool
  prog : List Cmd
deriving Repr

/-- The scene's `Drawer` interface field: the default `simpleDrawer`
(graphics list in insertion order + the `needFilter` dirty flag of the lazy
variant), an opaque custom implementation, or Go `nil` (the value stored by
`Scene.dispose`). -/
inductive Drawer where
  | simple (graphics : List Nat) (needFilter : Bool)
  | custom (tag : Nat)
  | nilDrawer
deriving DecidableEq, Repr

/-- `simpleDrawer.AddGraphics`: append in insertion order (the layer
argument is ignored by the single-layer default) and set `needFilter`.
A custom drawer's registration logic is external to the repository. -/
def Drawer.addGraphics (d : Drawer) (gid : Nat) (layer : Nat) : Drawer :=
  match d, layer with
  | .simple g _, _ => .simple (g ++ [gid]) true
  | d, _ => d

/-- The drawer's update hook: the lazy `simpleDrawer.Update` only marks the
`needFilter` dirty flag, leaving the graphics list untouched. -/
def Drawer.update : Drawer → Drawer
  | .simple g _ => .simple g true
  | d => d

/-- The `Scene` struct: controller (kept as its Init/Update programs),
active object list, pending-addition buffer, drawer, and the
`insideUpdate` flag consulted by `dispose`.  `gen` is a tag distinguishing
scene allocations (Go pointer identity). -/
structure Scene where
  gen : Nat
  ctrlInitProg : List Cmd
  ctrlUpdateProg : List Cmd
  objects : List Nat
  addedObjects : List Nat
  drawer : Drawer
  insideUpdate : Bool
deriving Repr

/-- The whole mutable state: the manager's current scene (`none` = the Go
nil pointer of a fresh `Manager`), the object store (oid ↦ disposed flag +
update program), the graphics store (gid ↦ disposed flag), and the
allocation counter for scene tags. -/
structure World where
  scene : Option Scene
  objs : List (Nat × ObjData)
  gfx : List (Nat × Bool)
  nextGen : Nat
deriving Repr

/-- Observable callback invocations, in execution order. -/
inductive Ev where
  | ctrlUpdate (gen : Nat)
  | objUpdate (oid : Nat)
  | objInit (oid : Nat)
  | drawerUpdate (gen : Nat)
  | flush (gen : Nat)
  | ctrlInit (gen : Nat)
  | sceneDisposed (gen : Nat)
  | gfxDraw (gid : Nat)
deriving DecidableEq, Repr

/-- Result of running library code: final state, emitted events, and the
in-flight panic (`none` = normal return). -/
structure Res where
  w : World
  tr : List Ev
  panic : Option Panic
deriving Repr

/-- Read an object's mutable state (a Go pointer dereference; ids absent
from the store behave as a fresh zero object and are never reachable from
the library's own flows). -/
def getObj (w : World) (oid : Nat) : ObjData :=
  (w.objs.lookup oid).getD ⟨false, []⟩

/-- Register / overwrite an object in the store. -/
def putObj (w : World) (oid : Nat) (d : ObjData) : World :=
  { w with objs := (oid, d) :: w.objs }

/-- An object toggles a disposed flag (its own or another's): the update
program is preserved, only the flag changes. -/
def setObjDisposed (w : World) (oid : Nat) (b : Bool) : World :=
  putObj w oid ⟨b, (getObj w oid).prog⟩

/-- Read a graphics object's disposed flag. -/
def getGfxDisposed (w : World) (gid : Nat) : Bool :=
  (w.gfx.lookup gid).getD false

/-- Register a graphics object (initially not disposed). -/
def putGfx (w : World) (gid : Nat) : World :=
  { w with gfx := (gid, false) :: w.gfx }

/-- Application code toggles a graphics object's disposed flag (between
frames, or from its owning object). -/
def setGfxDisposed (w : World) (gid : Nat) (b : Bool) : World :=
  { w with gfx := (gid, b) :: w.gfx }

/-- `newScene` + the fresh default drawer installed by `ChangeScene`:
empty object lists, a fresh `simpleDrawer`, `insideUpdate` false. -/
def newSceneW (g : Nat) (ip up : List Cmd) : Scene :=
  { gen := g
    ctrlInitProg := ip
    ctrlUpdateProg := up
    objects := []
    addedObjects := []
    drawer := .simple [] false
    insideUpdate := false }

/-- `Scene.dispose`: release the object lists, controller and drawer; if an
update pass of this scene is executing, additionally clear `insideUpdate`
and raise the `stopUpdate` unwind signal. -/
def Scene.dispose (s : Scene) : Scene × Option Panic :=
  let cleared : Scene :=
    { s with objects := [], addedObjects := [],
             ctrlInitProg := [], ctrlUpdateProg := [], drawer := .nilDrawer }
  if s.insideUpdate then
    ({ cleared with insideUpdate := false }, some .stopUpdate)
  else
    (cleared, none)

/-- `Scene.setDrawer`: the sanity check inspects the drawer being
installed — if it is a `simpleDrawer` that already holds graphics, panic;
otherwise install it. -/
def Scene.setDrawer (s : Scene) (d : Drawer) : Scene × Option Panic :=
  match d with
  | .simple g nf =>
      if g.length > 0 then (s, some .configError)
      else ({ s with drawer := .simple g nf }, none)
  | d => ({ s with drawer := d }, none)

/-- The state right after `Scene.AddObject`'s buffer append (the object
registered, the pending buffer extended) and before the object's Init
runs. -/
def addObjWorld (oid : Nat) (up : List Cmd) (s : Scene) (w : World) : World :=
  { putObj w oid ⟨false, up⟩ with
      scene := some { s with addedObjects := s.addedObjects ++ [oid] } }

/-- The state right after `Manager.ChangeScene` installs the fresh scene
(with its fresh default drawer) as current, before the new controller's
Init runs. -/
def chgWorld (ip up : List Cmd) (w : World) : World :=
  { w with scene := some (newSceneW w.nextGen ip up), nextGen := w.nextGen + 1 }

mutual

/-- Interpret one application command against the world.  `addObject` is
Go `Scene.AddObject`: append to the pending buffer first, then run the
object's Init synchronously.  `changeScene` is Go `Manager.ChangeScene`:
install a fresh scene (with a fresh default drawer), run the new
controller's Init, then dispose the previous scene if any — `dispose`
raises `stopUpdate` exactly when that scene is mid-update.  Commands that
reach through the scene pointer fail with `nilDeref` when it is nil, as Go
would. -/
def runCmd : Cmd → World → Res
  | .nop, w => ⟨w, [], none⟩
  | .fail n, w => ⟨w, [], some (.userFail n)⟩
  | .setDisposed oid b, w => ⟨setObjDisposed w oid b, [], none⟩
  | .addGraphics gid layer, w =>
    match w.scene with
    | none => ⟨w, [], some .nilDeref⟩
    | some s =>
      ⟨{ putGfx w gid with
           scene := some { s with drawer := s.drawer.addGraphics gid layer } },
       [], none⟩
  | .addObject oid ip up, w =>
    match w.scene with
    | none => ⟨w, [], some .nilDeref⟩
    | some s =>
      let r := runCmds ip (addObjWorld oid up s w)
      ⟨r.w, Ev.objInit oid :: r.tr, r.panic⟩
  | .changeScene ip up, w =>
    let prev := w.scene
    let g := w.nextGen
    let r := runCmds ip (chgWorld ip up w)
    match r.panic with
    | some p => ⟨r.w, Ev.ctrlInit g :: r.tr, some p⟩
    | none =>
      match prev with
      | none => ⟨r.w, Ev.ctrlInit g :: r.tr, none⟩
      | some ps =>
        ⟨r.w, Ev.ctrlInit g :: r.tr ++ [Ev.sceneDisposed ps.gen], (ps.dispose).2⟩

/-- Run a command sequence, stopping at the first panic (Go unwinding);
events emitted before the panic persist. -/
def runCmds : List Cmd → World → Res
  | [], w => ⟨w, [], none⟩
  | c :: cs, w =>
    let r := runCmd c w
    match r.panic with
    | some p => ⟨r.w, r.tr, some p⟩
    | none =>
      let r2 := runCmds cs r.w
      ⟨r2.w, r.tr ++ r2.tr, r2.panic⟩

end

/-- Result of the in-place object filter loop: final world, survivor list
(only meaningful on normal completion — on a panic the Go assignment
`s.objects = liveObjects` never executes), events, panic. -/
structure LoopRes where
  w : World
  kept : List Nat
  tr : List Ev
  panic : Option Panic
deriving Repr

/-- The body of `updateWithDeltaImpl`'s object loop: iterate the snapshot
of the active list; a disposed object is dropped silently, a live one has
its update program run and is kept.  The disposed flag is read from the
*current* world, so mid-pass disposals are observed. -/
def objLoop : List Nat → World → LoopRes
  | [], w => ⟨w, [], [], none⟩
  | oid :: rest, w =>
    if (getObj w oid).disposed then
      objLoop rest w
    else
      let r := runCmds (getObj w oid).prog w
      match r.panic with
      | some p => ⟨r.w, [], Ev.objUpdate oid :: r.tr, some p⟩
      | none =>
        let l := objLoop rest r.w
        ⟨l.w, oid :: l.kept, Ev.objUpdate oid :: r.tr ++ l.tr, l.panic⟩

/-- `Scene.updateWithDeltaImpl`: controller update, object loop with
in-place filtering, drawer update hook, pending-addition flush.  The
flush appends the buffer in insertion order and clears it.  (The update
passes the `delta` argument through to every callback unchanged; it has no
effect on control flow and is not represented.)  The inner `none` scene
branches are unreachable: mid-pass the current scene can only be replaced
by `changeScene`, which always panics while this scene's `insideUpdate`
flag is set. -/
def sceneUpdateImpl (w : World) : Res :=
  match w.scene with
  | none => ⟨w, [], some .nilDeref⟩
  | some s =>
    let r1 := runCmds s.ctrlUpdateProg w
    match r1.panic with
    | some p => ⟨r1.w, Ev.ctrlUpdate s.gen :: r1.tr, some p⟩
    | none =>
      match r1.w.scene with
      | none => ⟨r1.w, Ev.ctrlUpdate s.gen :: r1.tr, some .nilDeref⟩
      | some s1 =>
        let l := objLoop s1.objects r1.w
        match l.panic with
        | some p => ⟨l.w, Ev.ctrlUpdate s.gen :: r1.tr ++ l.tr, some p⟩
        | none =>
          match l.w.scene with
          | none => ⟨l.w, Ev.ctrlUpdate s.gen :: r1.tr ++ l.tr, some .nilDeref⟩
          | some s2 =>
            let s3 : Scene := { s2 with
                                  objects := l.kept ++ s2.addedObjects,
                                  addedObjects := [],
                                  drawer := s2.drawer.update }
            ⟨{ l.w with scene := some s3 },
             Ev.ctrlUpdate s.gen :: r1.tr ++ l.tr
               ++ [Ev.drawerUpdate s2.gen, Ev.flush s2.gen],
             none⟩

/-- The world the guarded entry point hands to the pass body: the current
scene with its `insideUpdate` flag set (the Go `s.insideUpdate = true`
write). -/
def passWorld (s : Scene) (w : World) : World :=
  { w with scene := some { s with insideUpdate := true } }

/-- `Scene.updateWithDelta`: the guarded entry point.  Set `insideUpdate`,
run the pass body; the deferred `recover` absorbs the `stopUpdate`
sentinel and re-raises everything else.  On normal completion
`insideUpdate` is cleared.  On a nil scene the first field write inside
the guard nil-derefs; the guard re-raises that runtime panic. -/
def sceneUpdateWithDelta (w : World) : Res :=
  match w.scene with
  | none => ⟨w, [], some .nilDeref⟩
  | some s =>
    let r := sceneUpdateImpl (passWorld s w)
    match r.panic with
    | none =>
      ⟨{ r.w with scene := r.w.scene.map fun s' => { s' with insideUpdate := false } },
       r.tr, none⟩
    | some .stopUpdate => ⟨r.w, r.tr, none⟩
    | some p => ⟨r.w, r.tr, some p⟩

/-- `Manager.UpdateWithDelta`: delegation to the current scene. -/
def managerUpdateWithDelta (w : World) : Res :=
  sceneUpdateWithDelta w

/-- `Manager.Update`: the `UpdateWithDelta(1.0/60.0)` shorthand. -/
def managerUpdate (w : World) : Res :=
  managerUpdateWithDelta w

/-- `Manager.ChangeScene` invoked by application code (the same logic the
in-pass `Cmd.changeScene` runs). -/
def managerChangeScene (ip up : List Cmd) (w : World) : Res :=
  runCmd (.changeScene ip up) w

/-- The live-graphics stable filter of `simpleDrawer.filter`. -/
def liveG (w : World) (g : List Nat) : List Nat :=
  g.filter fun gid => !getGfxDisposed w gid

/-- `Scene.draw` → `simpleDrawer.Draw`: if `needFilter` is set, filter out
disposed graphics first (in place, stable); clear `needFilter`; then draw
every remaining graphics in insertion order.  A custom drawer's Draw is
external to the repository.  `Manager.Draw` on a nil scene nil-derefs. -/
def sceneDraw (w : World) : Res :=
  match w.scene with
  | none => ⟨w, [], some .nilDeref⟩
  | some s =>
    match s.drawer with
    | .simple g nf =>
      let g1 := if nf then liveG w g else g
      ⟨{ w with scene := some { s with drawer := .simple g1 false } },
       g1.map Ev.gfxDraw, none⟩
    | .nilDrawer => ⟨w, [], some .nilDeref⟩
    | .custom _ => ⟨w, [], none⟩

/-- `Manager.Draw`: delegation to the current scene. -/
def managerDraw (w : World) : Res :=
  sceneDraw w

/-- `NewManager()`: nil current scene, empty stores. -/
def newManagerWorld : World :=
  { scene := none, objs := [], gfx := [], nextGen := 0 }

/-! ## The frame limiter (accumulator variant) -/

/-- `time.Second` in nanoseconds (Go `time.Duration` is an integer
nanosecond count). -/
def nsPerSecond : Int := 1000000000

/-- `FrameLimiter`: target fps, dirty flag, leftover-time accumulator,
per-frame delay, and the time of the previous `Do` attempt. -/
structure FrameLimiter where
  fps : Nat
  dirty : Bool
  timeAccum : Int
  drawDelay : Int
  prevDrawTime : Int
deriving DecidableEq, Repr

/-- `FrameLimiter.SetFPS`: 0 disables the delay; otherwise one second
divided by `fps + 1` (integer division, the `+1` is the source's
skip-less-often adjustment). -/
def FrameLimiter.setFPS (l : FrameLimiter) (fps : Nat) : FrameLimiter :=
  { l with fps := fps
         , drawDelay := if fps = 0 then 0 else nsPerSecond / (fps + 1 : Nat) }

/-- `NewFrameLimiter`: dirty starts true, then `SetFPS`. -/
def newFrameLimiter (fps : Nat) : FrameLimiter :=
  FrameLimiter.setFPS
    { fps := 0, dirty := true, timeAccum := 0, drawDelay := 0, prevDrawTime := 0 }
    fps

/-- `FrameLimiter.SetDirty`. -/
def FrameLimiter.setDirty (l : FrameLimiter) (b : Bool) : FrameLimiter :=
  { l with dirty := b }

/-- `FrameLimiter.Do` at wall-clock instant `now`: skip when not dirty;
with a nonzero delay, credit the accumulator with `min(delta, drawDelay)`
and draw only when it reaches `drawDelay`, keeping the leftover.  The
returned Bool reports whether the wrapped draw function was invoked. -/
def FrameLimiter.Do (l : FrameLimiter) (now : Int) : FrameLimiter × Bool :=
  if !l.dirty then (l, false)
  else if l.drawDelay ≠ 0 then
    let delta := now - l.prevDrawTime
    let acc := l.timeAccum + min delta l.drawDelay
    if acc < l.drawDelay then
      ({ l with prevDrawTime := now, timeAccum := acc }, false)
    else
      ({ l with prevDrawTime := now, timeAccum := acc - l.drawDelay }, true)
  else (l, true)

/-! ## Unfolding lemmas for the interpreter -/

theorem runCmds_nil (w : World) : runCmds [] w = ⟨w, [], none⟩ := rfl

theorem runCmds_cons_panic {c : Cmd} {cs : List Cmd} {w : World} {p : Panic}
    (h : (runCmd c w).panic = some p) :
    runCmds (c :: cs) w = ⟨(runCmd c w).w, (runCmd c w).tr, some p⟩ := by
  simp only [runCmds]
  rw [h]

theorem runCmds_cons_ok {c : Cmd} {cs : List Cmd} {w : World}
    (h : (runCmd c w).panic = none) :
    runCmds (c :: cs) w =
      ⟨(runCmds cs (runCmd c w).w).w,
       (runCmd c w).tr ++ (runCmds cs (runCmd c w).w).tr,
       (runCmds cs (runCmd c w).w).panic⟩ := by
  simp only [runCmds]
  rw [h]

theorem runCmd_nop (w : World) : runCmd .nop w = ⟨w, [], none⟩ := rfl

theorem runCmd_fail (n : Nat) (w : World) :
    runCmd (.fail n) w = ⟨w, [], some (.userFail n)⟩ := rfl

theorem runCmd_setDisposed (oid : Nat) (b : Bool) (w : World) :
    runCmd (.setDisposed oid b) w = ⟨setObjDisposed w oid b, [], none⟩ := rfl

theorem runCmd_addGraphics {w : World} {s : Scene} (gid layer : Nat)
    (hs : w.scene = some s) :
    runCmd (.addGraphics gid layer) w =
      ⟨{ putGfx w gid with
           scene := some { s with drawer := s.drawer.addGraphics gid layer } },
       [], none⟩ := by
  simp only [runCmd, hs]

theorem runCmd_addObject {w : World} {s : Scene} (oid : Nat) (ip up : List Cmd)
    (hs : w.scene = some s) :
    runCmd (.addObject oid ip up) w =
      ⟨(runCmds ip (addObjWorld oid up s w)).w,
       Ev.objInit oid :: (runCmds ip (addObjWorld oid up s w)).tr,
       (runCmds ip (addObjWorld oid up s w)).panic⟩ := by
  simp only [runCmd, hs]

theorem runCmd_changeScene_panicked {ip up : List Cmd} {w : World} {p : Panic}
    (h : (runCmds ip (chgWorld ip up w)).panic = some p) :
    runCmd (.changeScene ip up) w =
      ⟨(runCmds ip (chgWorld ip up w)).w,
       Ev.ctrlInit w.nextGen :: (runCmds ip (chgWorld ip up w)).tr, some p⟩ := by
  simp only [runCmd, h]

theorem runCmd_changeScene_ok_none {ip up : List Cmd} {w : World}
    (h : (runCmds ip (chgWorld ip up w)).panic = none) (hprev : w.scene = none) :
    runCmd (.changeScene ip up) w =
      ⟨(runCmds ip (chgWorld ip up w)).w,
       Ev.ctrlInit w.nextGen :: (runCmds ip (chgWorld ip up w)).tr, none⟩ := by
  simp only [runCmd, h, hprev]

theorem runCmd_changeScene_ok_prev {ip up : List Cmd} {w : World} {ps : Scene}
    (h : (runCmds ip (chgWorld ip up w)).panic = none) (hprev : w.scene = some ps) :
    runCmd (.changeScene ip up) w =
      ⟨(runCmds ip (chgWorld ip up w)).w,
       Ev.ctrlInit w.nextGen :: (runCmds ip (chgWorld ip up w)).tr
         ++ [Ev.sceneDisposed ps.gen],
       (ps.dispose).2⟩ := by
  simp only [runCmd, h, hprev]

theorem objLoop_nil (w : World) : objLoop [] w = ⟨w, [], [], none⟩ := rfl

theorem objLoop_cons_disposed {oid : Nat} {rest : List Nat} {w : World}
    (h : (getObj w oid).disposed = true) :
    objLoop (oid :: rest) w = objLoop rest w := by
  simp only [objLoop]
  rw [if_pos h]

theorem objLoop_cons_panic {oid : Nat} {rest : List Nat} {w : World} {p : Panic}
    (h : (getObj w oid).disposed = false)
    (hp : (runCmds (getObj w oid).prog w).panic = some p) :
    objLoop (oid :: rest) w =
      ⟨(runCmds (getObj w oid).prog w).w, [],
       Ev.objUpdate oid :: (runCmds (getObj w oid).prog w).tr, some p⟩ := by
  simp only [objLoop]
  rw [if_neg (by simp [h]), hp]

theorem objLoop_cons_ok {oid : Nat} {rest : List Nat} {w : World}
    (h : (getObj w oid).disposed = false)
    (hp : (runCmds (getObj w oid).prog w).panic = none) :
    objLoop (oid :: rest) w =
      ⟨(objLoop rest (runCmds (getObj w oid).prog w).w).w,
       oid :: (objLoop rest (runCmds (getObj w oid).prog w).w).kept,
       Ev.objUpdate oid :: (runCmds (getObj w oid).prog w).tr
         ++ (objLoop rest (runCmds (getObj w oid).prog w).w).tr,
       (objLoop rest (runCmds (getObj w oid).prog w).w).panic⟩ := by
  simp only [objLoop]
  rw [if_neg (by simp [h]), hp]

/-! ## Shapes of emitted traces -/

/-- The events a command interpretation itself can emit. -/
def cmdEv : Ev → Prop
  | .objInit _ => True
  | .ctrlInit _ => True
  | .sceneDisposed _ => True
  | _ => False

mutual

/-- Interpreting a single command emits only init/dispose events — in
particular never an `objUpdate`, `drawerUpdate`, `ctrlUpdate` or `flush`. -/
theorem runCmd_tr_shape (c : Cmd) (w : World) : ∀ e ∈ (runCmd c w).tr, cmdEv e := by
  match c with
  | .nop => intro e he; simp [runCmd] at he
  | .fail n => intro e he; simp [runCmd] at he
  | .setDisposed oid b => intro e he; simp [runCmd] at he
  | .addGraphics gid layer =>
    intro e he
    cases hs : w.scene with
    | none => simp [runCmd, hs] at he
    | some s => simp [runCmd, hs] at he
  | .addObject oid ip up =>
    intro e he
    cases hs : w.scene with
    | none => simp [runCmd, hs] at he
    | some s =>
      simp only [runCmd, hs] at he
      rcases List.mem_cons.mp he with h | h
      · subst h; trivial
      · exact runCmds_tr_shape ip _ e h
  | .changeScene ip up =>
    intro e he
    rcases hp : (runCmds ip (chgWorld ip up w)).panic with _ | p
    · rcases hprev : w.scene with _ | ps
      · rw [runCmd_changeScene_ok_none hp hprev] at he
        rcases List.mem_cons.mp he with h | h
        · subst h; trivial
        · exact runCmds_tr_shape ip _ e h
      · rw [runCmd_changeScene_ok_prev hp hprev] at he
        rcases List.mem_cons.mp he with h | h
        · subst h; trivial
        · rcases List.mem_append.mp h with h2 | h2
          · exact runCmds_tr_shape ip _ e h2
          · rcases List.mem_singleton.mp h2 with rfl; trivial
    · rw [runCmd_changeScene_panicked hp] at he
      rcases List.mem_cons.mp he with h | h
      · subst h; trivial
      · exact runCmds_tr_shape ip _ e h

/-- Interpreting a command sequence emits only init/dispose events. -/
theorem runCmds_tr_shape (cs : List Cmd) (w : World) :
    ∀ e ∈ (runCmds cs w).tr, cmdEv e := by
  match cs with
  | [] => intro e he; simp [runCmds_nil] at he
  | c :: rest =>
    intro e he
    rcases hp : (runCmd c w).panic with _ | p
    · rw [runCmds_cons_ok hp] at he
      rcases List.mem_append.mp he with h | h
      · exact runCmd_tr_shape c w e h
      · exact runCmds_tr_shape rest _ e h
    · rw [runCmds_cons_panic hp] at he
      exact runCmd_tr_shape c w e he

end

/-- The object loop emits update events only for members of the visited
snapshot, besides command-emitted events. -/
theorem objLoop_tr_shape (os : List Nat) (w : World) :
    ∀ e ∈ (objLoop os w).tr, cmdEv e ∨ ∃ oid ∈ os, e = Ev.objUpdate oid := by
  induction os generalizing w with
  | nil => intro e he; simp [objLoop_nil] at he
  | cons oid rest ih =>
    intro e he
    rcases hd : (getObj w oid).disposed with _ | _
    · rcases hp : (runCmds (getObj w oid).prog w).panic with _ | p
      · rw [objLoop_cons_ok hd hp] at he
        rcases List.mem_cons.mp he with h | h
        · exact Or.inr ⟨oid, List.mem_cons_self _ _, h⟩
        · rcases List.mem_append.mp h with h2 | h2
          · exact Or.inl (runCmds_tr_shape _ _ e h2)
          · rcases ih _ e h2 with h3 | ⟨x, hx, he'⟩
            · exact Or.inl h3
            · exact Or.inr ⟨x, List.mem_cons_of_mem _ hx, he'⟩
      · rw [objLoop_cons_panic hd hp] at he
        rcases List.mem_cons.mp he with h | h
        · exact Or.inr ⟨oid, List.mem_cons_self _ _, h⟩
        · exact Or.inl (runCmds_tr_shape _ _ e h)
    · rw [objLoop_cons_disposed hd] at he
      rcases ih _ e he with h | ⟨x, hx, he'⟩
      · exact Or.inl h
      · exact Or.inr ⟨x, List.mem_cons_of_mem _ hx, he'⟩

/-! ## Tame commands

Commands that neither panic, nor toggle object flags, nor change the
scene: the benign things a callback can do (nothing, add objects whose
inits are again tame, add graphics).  Used to describe the bystander
callbacks in scenario theorems. -/

mutual

/-- A command is tame when it cannot panic, cannot toggle an object flag,
and cannot change the scene; an `addObject`'s Init behaviour must again be
tame (its Update behaviour only matters in a later pass and is
unconstrained). -/
def Cmd.tame : Cmd → Bool
  | .nop => true
  | .fail _ => false
  | .setDisposed _ _ => false
  | .addGraphics _ _ => true
  | .addObject _ ip _ => Cmd.tameList ip
  | .changeScene _ _ => false

/-- All commands of a list are tame. -/
def Cmd.tameList : List Cmd → Bool
  | [] => true
  | c :: cs => c.tame && Cmd.tameList cs

end

mutual

/-- Object ids freshly registered by interpreting a command. -/
def Cmd.newOids : Cmd → List Nat
  | .addObject oid ip _ => oid :: Cmd.newOidsList ip
  | .changeScene ip _ => Cmd.newOidsList ip
  | _ => []

/-- Object ids freshly registered by a command list. -/
def Cmd.newOidsList : List Cmd → List Nat
  | [] => []
  | c :: cs => c.newOids ++ Cmd.newOidsList cs

end

/-- A trace consisting only of object-init events. -/
def Quiet (t : List Ev) : Prop := ∀ e ∈ t, ∃ oid, e = Ev.objInit oid

/-- The state evolution a tame command run can cause, relative to the set
`fresh` of object ids it registers: the current scene keeps its identity
and core fields (only the pending buffer grows, by appending, and the
simple drawer may receive appended graphics), object store entries outside
`fresh` are untouched, no disposed flag — object or graphics — is ever
raised, and no scene is allocated. -/
structure Evolves (fresh : List Nat) (w w' : World) : Prop where
  scene : ∀ s, w.scene = some s → ∃ s' app, w'.scene = some s' ∧
    s'.gen = s.gen ∧ s'.insideUpdate = s.insideUpdate ∧
    s'.objects = s.objects ∧ s'.ctrlInitProg = s.ctrlInitProg ∧
    s'.ctrlUpdateProg = s.ctrlUpdateProg ∧
    s'.addedObjects = s.addedObjects ++ app ∧
    ∀ G nf, s.drawer = .simple G nf → ∃ ext nf2, s'.drawer = .simple (G ++ ext) nf2
  store : ∀ oid, oid ∉ fresh → getObj w' oid = getObj w oid
  flagsMono : ∀ oid, (getObj w' oid).disposed = true → (getObj w oid).disposed = true
  gfxMono : ∀ gid, getGfxDisposed w' gid = true → getGfxDisposed w gid = true
  nextGen : w'.nextGen = w.nextGen

theorem Evolves.refl (fresh : List Nat) (w : World) : Evolves fresh w w := by
  refine ⟨?_, fun _ _ => rfl, fun _ h => h, fun _ h => h, rfl⟩
  intro s hs
  exact ⟨s, [], hs, rfl, rfl, rfl, rfl, rfl, by simp,
    fun G nf hG => ⟨[], nf, by simpa using hG⟩⟩

theorem Evolves.trans {f1 f2 : List Nat} {w1 w2 w3 : World}
    (h1 : Evolves f1 w1 w2) (h2 : Evolves f2 w2 w3) : Evolves (f1 ++ f2) w1 w3 := by
  refine ⟨?_, ?_, fun oid h => h1.flagsMono oid (h2.flagsMono oid h),
    fun gid h => h1.gfxMono gid (h2.gfxMono gid h),
    h2.nextGen.trans h1.nextGen⟩
  · intro s hs
    obtain ⟨s', app, hs', hgen, hin, hobj, hci, hcu, hadd, hdr⟩ := h1.scene s hs
    obtain ⟨s'', app2, hs'', hgen2, hin2, hobj2, hci2, hcu2, hadd2, hdr2⟩ := h2.scene s' hs'
    refine ⟨s'', app ++ app2, hs'', hgen2.trans hgen, hin2.trans hin,
      hobj2.trans hobj, hci2.trans hci, hcu2.trans hcu, ?_, ?_⟩
    · rw [hadd2, hadd, List.append_assoc]
    · intro G nf hG
      obtain ⟨ext, nf2, h⟩ := hdr G nf hG
      obtain ⟨ext2, nf3, h'⟩ := hdr2 _ _ h
      exact ⟨ext ++ ext2, nf3, by rw [h', List.append_assoc]⟩
  · intro oid hoid
    rw [h2.store oid fun h => hoid (List.mem_append.mpr (Or.inr h)),
        h1.store oid fun h => hoid (List.mem_append.mpr (Or.inl h))]

/-- Weaken the fresh-id set of an evolution. -/
theorem Evolves.mono {f1 f2 : List Nat} {w w' : World}
    (hsub : ∀ x ∈ f1, x ∈ f2) (h : Evolves f1 w w') : Evolves f2 w w' := by
  refine ⟨h.scene, ?_, h.flagsMono, h.gfxMono, h.nextGen⟩
  intro oid hoid
  exact h.store oid fun hx => hoid (hsub _ hx)

/-- What a tame run guarantees. -/
def GoodRes (fresh : List Nat) (w : World) (r : Res) : Prop :=
  r.panic = none ∧ Quiet r.tr ∧ Evolves fresh w r.w

/-! ### Store lookup helpers -/

theorem getObj_putObj (w : World) (oid x : Nat) (d : ObjData) :
    getObj (putObj w oid d) x = if x = oid then d else getObj w x := by
  by_cases h : x = oid
  · subst h; simp [getObj, putObj, List.lookup]
  · have hb : (x == oid) = false := by simpa using h
    simp [getObj, putObj, List.lookup, h, hb]

theorem getGfxDisposed_putGfx (w : World) (gid g : Nat) :
    getGfxDisposed (putGfx w gid) g = if g = gid then false else getGfxDisposed w g := by
  by_cases h : g = gid
  · subst h; simp [getGfxDisposed, putGfx, List.lookup]
  · have hb : (g == gid) = false := by simpa using h
    simp [getGfxDisposed, putGfx, List.lookup, h, hb]

theorem getObj_scene (w : World) (os : Option Scene) (x : Nat) :
    getObj { w with scene := os } x = getObj w x := rfl

theorem getGfxDisposed_scene (w : World) (os : Option Scene) (g : Nat) :
    getGfxDisposed { w with scene := os } g = getGfxDisposed w g := rfl

mutual

/-- A tame command never panics, emits only object-init events, and
evolves the state per `Evolves`. -/
theorem tame_runCmd (c : Cmd) (w : World) (s : Scene) (hs : w.scene = some s)
    (ht : c.tame = true) : GoodRes c.newOids w (runCmd c w) := by
  match c with
  | .nop =>
    exact ⟨rfl, by intro e he; simp [runCmd] at he, by simpa [runCmd] using Evolves.refl _ w⟩
  | .fail n => simp [Cmd.tame] at ht
  | .setDisposed oid b => simp [Cmd.tame] at ht
  | .changeScene ip up => simp [Cmd.tame] at ht
  | .addGraphics gid layer =>
    refine ⟨by simp [runCmd, hs], by intro e he; simp [runCmd, hs] at he, ?_⟩
    refine ⟨?_, ?_, ?_, ?_, by simp [runCmd, hs, putGfx]⟩
    · intro s0 hs0
      rw [hs] at hs0
      cases hs0
      refine ⟨{ s with drawer := s.drawer.addGraphics gid layer }, [],
        by simp [runCmd, hs], rfl, rfl, rfl, rfl, rfl, by simp, ?_⟩
      intro G nf hG
      exact ⟨[gid], true, by simp [Drawer.addGraphics, hG]⟩
    · intro oid _
      simp [runCmd, hs, getObj, putGfx]
    · intro oid h
      simpa [runCmd, hs, getObj, putGfx] using h
    · intro g h
      simp only [runCmd, hs] at h
      rw [getGfxDisposed_scene, getGfxDisposed_putGfx] at h
      by_cases hg : g = gid
      · rw [if_pos hg] at h; exact absurd h (by simp)
      · rwa [if_neg hg] at h
  | .addObject oid ip up =>
    have htip : Cmd.tameList ip = true := by simpa [Cmd.tame] using ht
    have hw2s : (addObjWorld oid up s w).scene =
        some { s with addedObjects := s.addedObjects ++ [oid] } := rfl
    obtain ⟨hp, hq, hev⟩ :=
      tame_runCmds ip (addObjWorld oid up s w)
        { s with addedObjects := s.addedObjects ++ [oid] } hw2s htip
    have hrun := runCmd_addObject oid ip up hs
    refine ⟨by rw [hrun]; exact hp, ?_, ?_⟩
    · rw [hrun]
      intro e he
      rcases List.mem_cons.mp he with h | h
      · exact ⟨oid, h⟩
      · exact hq e h
    · rw [hrun]
      have hstep : Evolves [oid] w (addObjWorld oid up s w) := by
        refine ⟨?_, ?_, ?_, ?_, by simp [addObjWorld, putObj]⟩
        · intro s0 hs0
          rw [hs] at hs0
          cases hs0
          refine ⟨{ s with addedObjects := s.addedObjects ++ [oid] }, [oid],
            hw2s, rfl, rfl, rfl, rfl, rfl, rfl, ?_⟩
          intro G nf hG
          exact ⟨[], nf, by simpa using hG⟩
        · intro x hx
          have hxo : x ≠ oid := by simpa using hx
          show getObj { putObj w oid ⟨false, up⟩ with
              scene := some { s with addedObjects := s.addedObjects ++ [oid] } } x
            = getObj w x
          rw [getObj_scene, getObj_putObj, if_neg hxo]
        · intro x h
          have h' : (getObj { putObj w oid ⟨false, up⟩ with
              scene := some { s with addedObjects := s.addedObjects ++ [oid] } } x).disposed
            = true := h
          rw [getObj_scene, getObj_putObj] at h'
          by_cases hxo : x = oid
          · rw [if_pos hxo] at h'; exact absurd h' (by simp)
          · rwa [if_neg hxo] at h'
        · intro g h
          exact h
      have := hstep.trans hev
      refine this.mono ?_
      intro x hx
      simp only [Cmd.newOids]
      simpa using hx

/-- A tame command list never panics, emits only object-init events, and
evolves the state per `Evolves`. -/
theorem tame_runCmds (cs : List Cmd) (w : World) (s : Scene) (hs : w.scene = some s)
    (ht : Cmd.tameList cs = true) : GoodRes (Cmd.newOidsList cs) w (runCmds cs w) := by
  match cs with
  | [] =>
    exact ⟨rfl, by intro e he; simp [runCmds_nil] at he,
      by simpa [runCmds_nil] using Evolves.refl _ w⟩
  | c :: rest =>
    have htc : c.tame = true := by
      have := ht; simp [Cmd.tameList, Bool.and_eq_true] at this; exact this.1
    have htr : Cmd.tameList rest = true := by
      have := ht; simp [Cmd.tameList, Bool.and_eq_true] at this; exact this.2
    obtain ⟨hp1, hq1, hev1⟩ := tame_runCmd c w s hs htc
    obtain ⟨s', app, hs', _⟩ := hev1.scene s hs
    obtain ⟨hp2, hq2, hev2⟩ := tame_runCmds rest (runCmd c w).w s' hs' htr
    rw [runCmds_cons_ok hp1]
    refine ⟨hp2, ?_, ?_⟩
    · intro e he
      rcases List.mem_append.mp he with h | h
      · exact hq1 e h
      · exact hq2 e h
    · exact (hev1.trans hev2).mono (by simp [Cmd.newOidsList])

end

/-! ## Inert commands: no store or buffer effect at all -/

/-- A command that touches at most the drawer: do nothing, or register a
graphics object. -/
def Cmd.inert : Cmd → Bool
  | .nop => true
  | .addGraphics _ _ => true
  | _ => false

/-- All commands of a list are inert. -/
def inertList (cs : List Cmd) : Bool := cs.all Cmd.inert

theorem Cmd.inert_tame {c : Cmd} (h : c.inert = true) : c.tame = true := by
  cases c <;> simp_all [Cmd.inert, Cmd.tame]

theorem inertList_tameList {cs : List Cmd} (h : inertList cs = true) :
    Cmd.tameList cs = true := by
  induction cs with
  | nil => rfl
  | cons c rest ih =>
    simp only [inertList, List.all_cons, Bool.and_eq_true] at h
    simp only [Cmd.tameList, Bool.and_eq_true]
    exact ⟨Cmd.inert_tame h.1, ih (by simpa [inertList] using h.2)⟩

/-- An inert command run: no panic, no events, object store, buffer and
scene core untouched (only the drawer and the graphics store can change,
and no graphics flag is raised). -/
theorem inert_runCmds (cs : List Cmd) (w : World) (s : Scene)
    (hs : w.scene = some s) (hi : inertList cs = true) :
    (runCmds cs w).panic = none ∧ (runCmds cs w).tr = [] ∧
      (runCmds cs w).w.objs = w.objs ∧ (runCmds cs w).w.nextGen = w.nextGen ∧
      (∀ gid, getGfxDisposed (runCmds cs w).w gid = true → getGfxDisposed w gid = true) ∧
      ∃ s', (runCmds cs w).w.scene = some s' ∧ s'.gen = s.gen ∧
        s'.insideUpdate = s.insideUpdate ∧ s'.objects = s.objects ∧
        s'.addedObjects = s.addedObjects ∧ s'.ctrlInitProg = s.ctrlInitProg ∧
        s'.ctrlUpdateProg = s.ctrlUpdateProg := by
  induction cs generalizing w s with
  | nil =>
    exact ⟨rfl, rfl, rfl, rfl, fun _ h => h, s, by simpa [runCmds_nil] using hs,
      rfl, rfl, rfl, rfl, rfl, rfl⟩
  | cons c rest ih =>
    have hc : c.inert = true := by
      simp only [inertList, List.all_cons, Bool.and_eq_true] at hi; exact hi.1
    have hr : inertList rest = true := by
      simp only [inertList, List.all_cons, Bool.and_eq_true] at hi; exact hi.2
    match c, hc with
    | .nop, _ =>
      have h1 : runCmd .nop w = ⟨w, [], none⟩ := rfl
      rw [runCmds_cons_ok (by rw [h1])]
      simpa [h1] using ih w s hs hr
    | .addGraphics gid layer, _ =>
      set w2 : World := { putGfx w gid with
          scene := some { s with drawer := s.drawer.addGraphics gid layer } } with hw2
      have h1 : runCmd (.addGraphics gid layer) w = ⟨w2, [], none⟩ := by
        simp only [runCmd, hs, hw2]
      rw [runCmds_cons_ok (by rw [h1])]
      have hrec := ih w2 { s with drawer := s.drawer.addGraphics gid layer } (by rw [hw2]) hr
      obtain ⟨hp, ht, ho, hg, hgfx, s', hsc, h2, h3, h4, h5, h6, h7⟩ := hrec
      refine ⟨by simpa [h1] using hp, by simp [h1, ht], ?_, ?_, ?_,
        s', by simpa [h1] using hsc, h2, h3, h4, h5, h6, h7⟩
      · rw [h1]; rw [ho, hw2]; rfl
      · rw [h1]; rw [hg, hw2]; rfl
      · intro g hgd
        rw [h1] at hgd
        have := hgfx g hgd
        rw [hw2, getGfxDisposed_scene, getGfxDisposed_putGfx] at this
        by_cases hgg : g = gid
        · rw [if_pos hgg] at this; exact absurd this (by simp)
        · rwa [if_neg hgg] at this

/-! ## Success of a pass body leaves the running scene in place

While `insideUpdate` is set on the current scene, any `changeScene`
necessarily panics (the disposed previous scene is mid-update), so a
command run that returns normally has preserved the scene's identity and
core fields. -/

mutual

theorem ok_runCmd_scene (c : Cmd) (w : World) (s : Scene) (hs : w.scene = some s)
    (hin : s.insideUpdate = true) (hok : (runCmd c w).panic = none) :
    ∃ s' app, (runCmd c w).w.scene = some s' ∧ s'.gen = s.gen ∧
      s'.insideUpdate = true ∧ s'.objects = s.objects ∧
      s'.ctrlInitProg = s.ctrlInitProg ∧ s'.ctrlUpdateProg = s.ctrlUpdateProg ∧
      s'.addedObjects = s.addedObjects ++ app := by
  match c with
  | .nop => exact ⟨s, [], by simpa [runCmd] using hs, rfl, hin, rfl, rfl, rfl, by simp⟩
  | .fail n => simp [runCmd] at hok
  | .setDisposed oid b =>
    exact ⟨s, [], by simpa [runCmd, setObjDisposed, putObj] using hs, rfl, hin, rfl,
      rfl, rfl, by simp⟩
  | .addGraphics gid layer =>
    exact ⟨{ s with drawer := s.drawer.addGraphics gid layer }, [],
      by simp [runCmd, hs], rfl, hin, rfl, rfl, rfl, by simp⟩
  | .addObject oid ip up =>
    have hw2s : (addObjWorld oid up s w).scene =
        some { s with addedObjects := s.addedObjects ++ [oid] } := rfl
    rw [runCmd_addObject oid ip up hs] at hok ⊢
    obtain ⟨s', app, hsc, h2, h3, h4, h5, h6, h7⟩ :=
      ok_runCmds_scene ip (addObjWorld oid up s w)
        { s with addedObjects := s.addedObjects ++ [oid] } hw2s hin hok
    exact ⟨s', [oid] ++ app, hsc, h2, h3, h4, h5, h6, by
      rw [h7]; simp⟩
  | .changeScene ip up =>
    exfalso
    rcases hip : (runCmds ip (chgWorld ip up w)).panic with _ | p
    · rw [runCmd_changeScene_ok_prev hip hs] at hok
      simp [Scene.dispose, hin] at hok
    · rw [runCmd_changeScene_panicked hip] at hok
      exact Option.noConfusion hok

theorem ok_runCmds_scene (cs : List Cmd) (w : World) (s : Scene) (hs : w.scene = some s)
    (hin : s.insideUpdate = true) (hok : (runCmds cs w).panic = none) :
    ∃ s' app, (runCmds cs w).w.scene = some s' ∧ s'.gen = s.gen ∧
      s'.insideUpdate = true ∧ s'.objects = s.objects ∧
      s'.ctrlInitProg = s.ctrlInitProg ∧ s'.ctrlUpdateProg = s.ctrlUpdateProg ∧
      s'.addedObjects = s.addedObjects ++ app := by
  match cs with
  | [] => exact ⟨s, [], by simpa [runCmds_nil] using hs, rfl, hin, rfl, rfl, rfl, by simp⟩
  | c :: rest =>
    rcases hp : (runCmd c w).panic with _ | p
    · rw [runCmds_cons_ok hp] at hok ⊢
      obtain ⟨s1, app1, hsc1, h2, h3, h4, h5, h6, h7⟩ := ok_runCmd_scene c w s hs hin hp
      obtain ⟨s2, app2, hsc2, g2, g3, g4, g5, g6, g7⟩ :=
        ok_runCmds_scene rest (runCmd c w).w s1 hsc1 h3 hok
      exact ⟨s2, app1 ++ app2, hsc2, g2.trans h2, g3, g4.trans h4,
        g5.trans h5, g6.trans h6, by rw [g7, h7]; simp⟩
    · rw [runCmds_cons_panic hp] at hok
      exact Option.noConfusion hok

end

/-- The loop version of scene preservation, and the characterization that
on normal completion the survivors are exactly the visited objects that
were live at their visit. -/
theorem ok_objLoop_scene (os : List Nat) (w : World) (s : Scene) (hs : w.scene = some s)
    (hin : s.insideUpdate = true) (hok : (objLoop os w).panic = none) :
    ∃ s' app, (objLoop os w).w.scene = some s' ∧ s'.gen = s.gen ∧
      s'.insideUpdate = true ∧ s'.objects = s.objects ∧
      s'.ctrlInitProg = s.ctrlInitProg ∧ s'.ctrlUpdateProg = s.ctrlUpdateProg ∧
      s'.addedObjects = s.addedObjects ++ app := by
  induction os generalizing w s with
  | nil => exact ⟨s, [], by simpa [objLoop_nil] using hs, rfl, hin, rfl, rfl, rfl, by simp⟩
  | cons oid rest ih =>
    rcases hd : (getObj w oid).disposed with _ | _
    · rcases hp : (runCmds (getObj w oid).prog w).panic with _ | p
      · rw [objLoop_cons_ok hd hp] at hok ⊢
        obtain ⟨s1, app1, hsc1, h2, h3, h4, h5, h6, h7⟩ :=
          ok_runCmds_scene _ w s hs hin hp
        obtain ⟨s2, app2, hsc2, g2, g3, g4, g5, g6, g7⟩ :=
          ih _ s1 hsc1 h3 hok
        exact ⟨s2, app1 ++ app2, hsc2, g2.trans h2, g3, g4.trans h4,
          g5.trans h5, g6.trans h6, by rw [g7, h7]; simp⟩
      · rw [objLoop_cons_panic hd hp] at hok
        exact Option.noConfusion hok
    · rw [objLoop_cons_disposed hd] at hok ⊢
      exact ih w s hs hin hok

/-! ## Loop composition and the tame-object loop -/

/-- Processing a concatenated snapshot: if the first part completes
without a panic, the loop continues with the second part from the reached
state, concatenating survivors and traces. -/
theorem objLoop_append (xs ys : List Nat) (w : World)
    (h : (objLoop xs w).panic = none) :
    objLoop (xs ++ ys) w =
      ⟨(objLoop ys (objLoop xs w).w).w,
       (objLoop xs w).kept ++ (objLoop ys (objLoop xs w).w).kept,
       (objLoop xs w).tr ++ (objLoop ys (objLoop xs w).w).tr,
       (objLoop ys (objLoop xs w).w).panic⟩ := by
  induction xs generalizing w with
  | nil => simp [objLoop_nil]
  | cons oid rest ih =>
    rcases hd : (getObj w oid).disposed with _ | _
    · rcases hp : (runCmds (getObj w oid).prog w).panic with _ | p
      · rw [objLoop_cons_ok hd hp] at h
        rw [List.cons_append, objLoop_cons_ok hd hp, objLoop_cons_ok hd hp,
          ih _ h]
        simp
      · rw [objLoop_cons_panic hd hp] at h
        exact absurd h (by simp)
    · rw [objLoop_cons_disposed hd] at h
      rw [List.cons_append, objLoop_cons_disposed hd, objLoop_cons_disposed hd]
      exact ih _ h

/-- Hypotheses letting the loop run a snapshot of tame, live objects to
completion: every listed object is live, has a tame program, and no listed
id collides with an id freshly registered by any listed program. -/
def TameObjs (os : List Nat) (w : World) : Prop :=
  (∀ oid ∈ os, (getObj w oid).disposed = false) ∧
  (∀ oid ∈ os, Cmd.tameList (getObj w oid).prog = true) ∧
  (∀ oid ∈ os, ∀ oid' ∈ os, oid ∉ Cmd.newOidsList (getObj w oid').prog)

/-- Running the loop over tame live objects: no panic, everyone survives
in order, the state evolves tamely (with the fresh ids bounded by the
programs' registrations), and the trace consists of the objects' update
events (in order) and object-init events. -/
theorem objLoop_tame (os : List Nat) (w : World) (s : Scene) (hs : w.scene = some s)
    (h : TameObjs os w) :
    (objLoop os w).panic = none ∧ (objLoop os w).kept = os ∧
      (∃ fresh, Evolves fresh w (objLoop os w).w ∧
        ∀ x ∈ fresh, ∃ oid ∈ os, x ∈ Cmd.newOidsList (getObj w oid).prog) ∧
      (∀ e ∈ (objLoop os w).tr,
        (∃ oid ∈ os, e = Ev.objUpdate oid) ∨ ∃ oid, e = Ev.objInit oid) ∧
      (∀ oid ∈ os, Ev.objUpdate oid ∈ (objLoop os w).tr) := by
  obtain ⟨hflag, htame, hfresh⟩ := h
  induction os generalizing w s with
  | nil =>
    exact ⟨rfl, rfl, ⟨[], by simpa [objLoop_nil] using Evolves.refl [] w,
      by simp⟩, by intro e he; simp [objLoop_nil] at he,
      by intro oid hoid; simp at hoid⟩
  | cons oid rest ih =>
    have hd : (getObj w oid).disposed = false := hflag oid (List.mem_cons_self _ _)
    obtain ⟨hp, hq, hev⟩ :=
      tame_runCmds (getObj w oid).prog w s hs (htame oid (List.mem_cons_self _ _))
    set w1 := (runCmds (getObj w oid).prog w).w with hw1
    obtain ⟨s1, app1, hs1, _⟩ := hev.scene s hs
    -- the recursive hypotheses for the rest, in the evolved world
    have hstore : ∀ x ∈ rest, getObj w1 x = getObj w x := by
      intro x hx
      refine hev.store x ?_
      intro hmem
      exact hfresh x (List.mem_cons_of_mem _ hx) oid (List.mem_cons_self _ _) hmem
    have hflag1 : ∀ x ∈ rest, (getObj w1 x).disposed = false := by
      intro x hx
      rw [hstore x hx]
      exact hflag x (List.mem_cons_of_mem _ hx)
    have htame1 : ∀ x ∈ rest, Cmd.tameList (getObj w1 x).prog = true := by
      intro x hx
      rw [hstore x hx]
      exact htame x (List.mem_cons_of_mem _ hx)
    have hfresh1 : ∀ x ∈ rest, ∀ x' ∈ rest, x ∉ Cmd.newOidsList (getObj w1 x').prog := by
      intro x hx x' hx'
      rw [hstore x' hx']
      exact hfresh x (List.mem_cons_of_mem _ hx) x' (List.mem_cons_of_mem _ hx')
    obtain ⟨ihp, ihkept, ⟨fr, ihev, ihfr⟩, ihtr, ihocc⟩ := ih w1 s1 hs1 hflag1 htame1 hfresh1
    rw [objLoop_cons_ok hd hp]
    refine ⟨ihp, by rw [ihkept], ?_, ?_, ?_⟩
    · refine ⟨Cmd.newOidsList (getObj w oid).prog ++ fr, hev.trans ihev, ?_⟩
      intro x hx
      rcases List.mem_append.mp hx with h1 | h1
      · exact ⟨oid, List.mem_cons_self _ _, h1⟩
      · obtain ⟨y, hy, hmem⟩ := ihfr x h1
        refine ⟨y, List.mem_cons_of_mem _ hy, ?_⟩
        rwa [hstore y hy] at hmem
    · intro e he
      rcases List.mem_cons.mp he with h1 | h1
      · exact Or.inl ⟨oid, List.mem_cons_self _ _, h1⟩
      · rcases List.mem_append.mp h1 with h2 | h2
        · exact Or.inr (hq e h2)
        · rcases ihtr e h2 with ⟨y, hy, he'⟩ | h3
          · exact Or.inl ⟨y, List.mem_cons_of_mem _ hy, he'⟩
          · exact Or.inr h3
    · intro x hx
      rcases List.mem_cons.mp hx with h1 | h1
      · subst h1
        exact List.mem_cons_self _ _
      · exact List.mem_cons_of_mem _ (List.mem_append.mpr (Or.inr (ihocc x h1)))

/-! ## The declarative single-pass filter -/

/-- The specification of step (2) of the update pass, as a relation:
visit each object of the snapshot in order; an object whose disposed flag
reads true *at its visit* is dropped, silently; otherwise its update runs
(an `objUpdate` event, followed by whatever its program does) and it is
kept.  Survivors and events appear in visit order. -/
inductive Filters : List Nat → World → World → List Nat → List Ev → Prop where
  | nil (w : World) : Filters [] w w [] []
  | drop {oid : Nat} {rest : List Nat} {w w' : World} {kept : List Nat} {tr : List Ev} :
      (getObj w oid).disposed = true →
      Filters rest w w' kept tr → Filters (oid :: rest) w w' kept tr
  | keep {oid : Nat} {rest : List Nat} {w w1 w' : World} {kept : List Nat}
      {tr t1 : List Ev} :
      (getObj w oid).disposed = false →
      runCmds (getObj w oid).prog w = ⟨w1, t1, none⟩ →
      Filters rest w1 w' kept tr →
      Filters (oid :: rest) w w' (oid :: kept) (Ev.objUpdate oid :: t1 ++ tr)

/-- The loop implements the declarative filter whenever it completes. -/
theorem objLoop_filters (os : List Nat) (w : World)
    (h : (objLoop os w).panic = none) :
    Filters os w (objLoop os w).w (objLoop os w).kept (objLoop os w).tr := by
  induction os generalizing w with
  | nil => simp only [objLoop_nil]; exact .nil w
  | cons oid rest ih =>
    rcases hd : (getObj w oid).disposed with _ | _
    · rcases hp : (runCmds (getObj w oid).prog w).panic with _ | p
      · rw [objLoop_cons_ok hd hp] at h ⊢
        have heq : runCmds (getObj w oid).prog w =
            ⟨(runCmds (getObj w oid).prog w).w, (runCmds (getObj w oid).prog w).tr, none⟩ := by
          rw [← hp]
        exact .keep hd heq (ih _ h)
      · rw [objLoop_cons_panic hd hp] at h
        exact absurd h (by simp)
    · rw [objLoop_cons_disposed hd] at h ⊢
      exact .drop hd (ih _ h)

/-- Survivors of a filter pass are a stable (order-preserving) sublist of
the visited snapshot. -/
theorem Filters.sublist {os : List Nat} {w w' : World} {kept : List Nat} {tr : List Ev}
    (h : Filters os w w' kept tr) : kept.Sublist os := by
  induction h with
  | nil => exact .slnil
  | drop _ _ ih => exact ih.cons _
  | keep _ _ _ ih => exact ih.cons₂ _

/-! ## Unfolding the update pass -/

theorem sceneUpdateImpl_eq (w0 : World) (s0 s1 s2 : Scene)
    (hs : w0.scene = some s0)
    (h1 : (runCmds s0.ctrlUpdateProg w0).panic = none)
    (hs1 : (runCmds s0.ctrlUpdateProg w0).w.scene = some s1)
    (h2 : (objLoop s1.objects (runCmds s0.ctrlUpdateProg w0).w).panic = none)
    (hs2 : (objLoop s1.objects (runCmds s0.ctrlUpdateProg w0).w).w.scene = some s2) :
    sceneUpdateImpl w0 =
      ⟨{ (objLoop s1.objects (runCmds s0.ctrlUpdateProg w0).w).w with
           scene := some { s2 with
             objects := (objLoop s1.objects (runCmds s0.ctrlUpdateProg w0).w).kept
               ++ s2.addedObjects,
             addedObjects := [],
             drawer := s2.drawer.update } },
       Ev.ctrlUpdate s0.gen :: (runCmds s0.ctrlUpdateProg w0).tr
         ++ (objLoop s1.objects (runCmds s0.ctrlUpdateProg w0).w).tr
         ++ [Ev.drawerUpdate s2.gen, Ev.flush s2.gen],
       none⟩ := by
  simp only [sceneUpdateImpl, hs, h1, hs1, h2, hs2]

theorem sceneUpdateImpl_ctrl_panic (w0 : World) (s0 : Scene) (p : Panic)
    (hs : w0.scene = some s0)
    (h1 : (runCmds s0.ctrlUpdateProg w0).panic = some p) :
    sceneUpdateImpl w0 =
      ⟨(runCmds s0.ctrlUpdateProg w0).w,
       Ev.ctrlUpdate s0.gen :: (runCmds s0.ctrlUpdateProg w0).tr, some p⟩ := by
  simp only [sceneUpdateImpl, hs, h1]

theorem sceneUpdateImpl_loop_panic (w0 : World) (s0 s1 : Scene) (p : Panic)
    (hs : w0.scene = some s0)
    (h1 : (runCmds s0.ctrlUpdateProg w0).panic = none)
    (hs1 : (runCmds s0.ctrlUpdateProg w0).w.scene = some s1)
    (h2 : (objLoop s1.objects (runCmds s0.ctrlUpdateProg w0).w).panic = some p) :
    sceneUpdateImpl w0 =
      ⟨(objLoop s1.objects (runCmds s0.ctrlUpdateProg w0).w).w,
       Ev.ctrlUpdate s0.gen :: (runCmds s0.ctrlUpdateProg w0).tr
         ++ (objLoop s1.objects (runCmds s0.ctrlUpdateProg w0).w).tr,
       some p⟩ := by
  simp only [sceneUpdateImpl, hs, h1, hs1, h2]

theorem sceneUpdateWithDelta_ok {w : World} {s : Scene}
    (hs : w.scene = some s)
    (h : (sceneUpdateImpl (passWorld s w)).panic = none) :
    sceneUpdateWithDelta w =
      ⟨{ (sceneUpdateImpl (passWorld s w)).w with
           scene := (sceneUpdateImpl (passWorld s w)).w.scene.map
             fun s' => { s' with insideUpdate := false } },
       (sceneUpdateImpl (passWorld s w)).tr, none⟩ := by
  simp only [sceneUpdateWithDelta, hs, h]

theorem sceneUpdateWithDelta_absorb {w : World} {s : Scene}
    (hs : w.scene = some s)
    (h : (sceneUpdateImpl (passWorld s w)).panic = some .stopUpdate) :
    sceneUpdateWithDelta w =
      ⟨(sceneUpdateImpl (passWorld s w)).w, (sceneUpdateImpl (passWorld s w)).tr, none⟩ := by
  simp only [sceneUpdateWithDelta, hs, h]

theorem sceneUpdateWithDelta_reraise {w : World} {s : Scene} {p : Panic}
    (hs : w.scene = some s) (hne : p ≠ .stopUpdate)
    (h : (sceneUpdateImpl (passWorld s w)).panic = some p) :
    sceneUpdateWithDelta w =
      ⟨(sceneUpdateImpl (passWorld s w)).w, (sceneUpdateImpl (passWorld s w)).tr, some p⟩ := by
  simp only [sceneUpdateWithDelta, hs, h]

/-! ## Claims -/

/-- C9: on a freshly constructed Manager with no `ChangeScene` call,
`Update`, `UpdateWithDelta` and `Draw` are not no-ops: each dereferences
the nil current scene and panics. -/
theorem C9_fresh_manager_panics :
    (managerUpdate newManagerWorld).panic = some Panic.nilDeref ∧
    (managerUpdateWithDelta newManagerWorld).panic = some Panic.nilDeref ∧
    (managerDraw newManagerWorld).panic = some Panic.nilDeref ∧
    newManagerWorld.scene = none := ⟨rfl, rfl, rfl, rfl⟩

/-- C8: the frame limiter draws only when dirty and (for a nonzero target
rate) only when the time accumulator, credited with `min(delta, delay)`
per attempt, reaches one frame delay; the leftover is carried over rather
than reset; target rate 0 draws on every dirty call; the dirty flag
defaults to true; and an accumulator within one frame interval stays
within one frame interval across any `Do` call. -/
theorem FrameLimiter.Do_not_dirty (l : FrameLimiter) (now : Int) (h : l.dirty = false) :
    l.Do now = (l, false) := by
  simp [FrameLimiter.Do, h]

theorem FrameLimiter.Do_unlimited (l : FrameLimiter) (now : Int)
    (h1 : l.dirty = true) (h0 : l.drawDelay = 0) : l.Do now = (l, true) := by
  simp [FrameLimiter.Do, h1, h0]

theorem FrameLimiter.Do_skip {l : FrameLimiter} {now : Int}
    (h1 : l.dirty = true) (h0 : l.drawDelay ≠ 0)
    (hlt : l.timeAccum + min (now - l.prevDrawTime) l.drawDelay < l.drawDelay) :
    l.Do now =
      ({ l with
          prevDrawTime := now
          timeAccum := l.timeAccum + min (now - l.prevDrawTime) l.drawDelay },
       false) := by
  simp [FrameLimiter.Do, h1, h0, hlt]

theorem FrameLimiter.Do_draw {l : FrameLimiter} {now : Int}
    (h1 : l.dirty = true) (h0 : l.drawDelay ≠ 0)
    (hge : ¬ l.timeAccum + min (now - l.prevDrawTime) l.drawDelay < l.drawDelay) :
    l.Do now =
      ({ l with
          prevDrawTime := now
          timeAccum := l.timeAccum + min (now - l.prevDrawTime) l.drawDelay - l.drawDelay },
       true) := by
  simp [FrameLimiter.Do, h1, h0, hge]

theorem C8_frame_limiter_contract :
    ((∀ fps, (newFrameLimiter fps).dirty = true) ∧
     (∀ fps, (newFrameLimiter fps).timeAccum = 0 ∧ 0 ≤ (newFrameLimiter fps).drawDelay)) ∧
    (∀ (l : FrameLimiter) (now : Int), l.dirty = false → l.Do now = (l, false)) ∧
    (∀ (l : FrameLimiter) (now : Int), l.dirty = true → l.drawDelay = 0 →
      (l.Do now).2 = true) ∧
    ((newFrameLimiter 0).drawDelay = 0) ∧
    (∀ (l : FrameLimiter) (now : Int), l.dirty = true → l.drawDelay ≠ 0 →
      ((l.Do now).2 = true ↔
        l.drawDelay ≤ l.timeAccum + min (now - l.prevDrawTime) l.drawDelay)) ∧
    (∀ (l : FrameLimiter) (now : Int), l.dirty = true → l.drawDelay ≠ 0 →
      (l.Do now).2 = true →
      (l.Do now).1.timeAccum
        = l.timeAccum + min (now - l.prevDrawTime) l.drawDelay - l.drawDelay) ∧
    (∀ (l : FrameLimiter) (now : Int), l.timeAccum ≤ l.drawDelay →
      (l.Do now).1.timeAccum ≤ l.drawDelay) := by
  refine ⟨⟨fun fps => rfl, fun fps => ⟨rfl, ?_⟩⟩, ?_, ?_, rfl, ?_, ?_, ?_⟩
  · by_cases h : fps = 0
    · simp [newFrameLimiter, FrameLimiter.setFPS, h]
    · simp only [newFrameLimiter, FrameLimiter.setFPS, if_neg h]
      exact Int.ediv_nonneg (by norm_num [nsPerSecond]) (by positivity)
  · exact fun l now h => FrameLimiter.Do_not_dirty l now h
  · intro l now h1 h2
    rw [FrameLimiter.Do_unlimited l now h1 h2]
  · intro l now h1 h2
    by_cases hlt : l.timeAccum + min (now - l.prevDrawTime) l.drawDelay < l.drawDelay
    · rw [FrameLimiter.Do_skip h1 h2 hlt]
      simp
      omega
    · rw [FrameLimiter.Do_draw h1 h2 hlt]
      simp
      omega
  · intro l now h1 h2 hdraw
    by_cases hlt : l.timeAccum + min (now - l.prevDrawTime) l.drawDelay < l.drawDelay
    · rw [FrameLimiter.Do_skip h1 h2 hlt] at hdraw
      exact absurd hdraw (by simp)
    · rw [FrameLimiter.Do_draw h1 h2 hlt]
  · intro l now hinv
    rcases hd : l.dirty with _ | _
    · rw [FrameLimiter.Do_not_dirty l now hd]
      exact hinv
    · by_cases h0 : l.drawDelay = 0
      · rw [FrameLimiter.Do_unlimited l now hd h0]
        exact hinv
      · have hmin : min (now - l.prevDrawTime) l.drawDelay ≤ l.drawDelay :=
          min_le_right _ _
        by_cases hlt : l.timeAccum + min (now - l.prevDrawTime) l.drawDelay < l.drawDelay
        · rw [FrameLimiter.Do_skip hd h0 hlt]
          simp only [FrameLimiter.timeAccum]
          omega
        · rw [FrameLimiter.Do_draw hd h0 hlt]
          simp only [FrameLimiter.timeAccum]
          omega

/-- C8 witness: the contract applied to a 30-fps limiter at concrete
instants. -/
theorem C8_frame_limiter_contract_witness :
    (((newFrameLimiter 30).dirty = true ∧ (newFrameLimiter 30).drawDelay ≠ 0) ∧
      (((newFrameLimiter 30).Do 1000000000).2 = true ↔
        (newFrameLimiter 30).drawDelay ≤ (newFrameLimiter 30).timeAccum
          + min ((1000000000 : Int) - (newFrameLimiter 30).prevDrawTime)
              (newFrameLimiter 30).drawDelay)) ∧
    ((newFrameLimiter 30).timeAccum ≤ (newFrameLimiter 30).drawDelay ∧
      ((newFrameLimiter 30).Do 1000000000).1.timeAccum ≤ (newFrameLimiter 30).drawDelay) ∧
    (((newFrameLimiter 30).setDirty false).dirty = false ∧
      ((newFrameLimiter 30).setDirty false).Do 5 = ((newFrameLimiter 30).setDirty false, false)) := by
  refine ⟨⟨⟨by decide, by decide⟩, ?_⟩, ⟨by decide, ?_⟩, by decide, ?_⟩
  · exact C8_frame_limiter_contract.2.2.2.2.1 (newFrameLimiter 30) 1000000000
      (by decide) (by decide)
  · exact C8_frame_limiter_contract.2.2.2.2.2.2 (newFrameLimiter 30) 1000000000 (by decide)
  · exact C8_frame_limiter_contract.2.1 ((newFrameLimiter 30).setDirty false) 5 (by decide)

/-- A scene whose current (default) drawer already holds a graphics
object with id 5. -/
def scC6 : Scene :=
  { gen := 0, ctrlInitProg := [], ctrlUpdateProg := [], objects := [],
    addedObjects := [], drawer := .simple [5] false, insideUpdate := false }

/-- C6 counterexample: with graphics already registered into the scene's
current drawer, installing a *different* drawer — a custom implementation,
or a fresh empty default one — is accepted without any error, contrary to
the claim that it is rejected. -/
theorem C6_counterexample_swap_accepted :
    ((scC6.setDrawer (Drawer.custom 0)).2 = none ∧
      (scC6.setDrawer (Drawer.custom 0)).1.drawer = Drawer.custom 0) ∧
    ((scC6.setDrawer (Drawer.simple [] false)).2 = none ∧
      (scC6.setDrawer (Drawer.simple [] false)).1.drawer = Drawer.simple [] false) ∧
    scC6.drawer = Drawer.simple [5] false := by
  exact ⟨⟨rfl, rfl⟩, ⟨rfl, rfl⟩, rfl⟩

/-- C6 (amended): the sanity check inspects the drawer being *installed*,
not the scene's current drawer: `setDrawer` panics exactly when its
argument is a default simple drawer that already holds graphics; every
other drawer (custom, or an empty simple one) is installed unchecked,
regardless of what the current drawer holds. -/
theorem C6_amended_setDrawer (s : Scene) (d : Drawer) :
    ((s.setDrawer d).2 = some Panic.configError ↔
      ∃ g nf, d = Drawer.simple g nf ∧ g ≠ []) ∧
    ((s.setDrawer d).2 = none ∨ (s.setDrawer d).2 = some Panic.configError) ∧
    ((s.setDrawer d).2 = none → (s.setDrawer d).1 = { s with drawer := d }) ∧
    ((s.setDrawer d).2 = some Panic.configError → (s.setDrawer d).1 = s) := by
  match d with
  | .simple g nf =>
    by_cases hg : g = []
    · subst hg
      refine ⟨?_, Or.inl rfl, fun _ => rfl, fun h => by simp [Scene.setDrawer] at h⟩
      simp [Scene.setDrawer]
    · have hlen : g.length > 0 := List.length_pos.mpr hg
      refine ⟨?_, Or.inr (by simp [Scene.setDrawer, hlen]), ?_, ?_⟩
      · exact iff_of_true (by simp [Scene.setDrawer, hlen]) ⟨g, nf, rfl, hg⟩
      · intro h
        simp [Scene.setDrawer, hlen] at h
      · intro _
        simp [Scene.setDrawer, hlen]
  | .custom t =>
    exact ⟨by simp [Scene.setDrawer], Or.inl rfl, fun _ => rfl,
      fun h => by simp [Scene.setDrawer] at h⟩
  | .nilDrawer =>
    exact ⟨by simp [Scene.setDrawer], Or.inl rfl, fun _ => rfl,
      fun h => by simp [Scene.setDrawer] at h⟩

/-- C6 amended witness: the amended characterization applied to the
counterexample scene and a populated new simple drawer. -/
theorem C6_amended_setDrawer_witness :
    ((scC6.setDrawer (Drawer.simple [7] true)).2 = some Panic.configError ↔
      ∃ g nf, Drawer.simple [7] true = Drawer.simple g nf ∧ g ≠ []) ∧
    ((scC6.setDrawer (Drawer.custom 2)).2 = none →
      (scC6.setDrawer (Drawer.custom 2)).1 = { scC6 with drawer := Drawer.custom 2 }) :=
  ⟨(C6_amended_setDrawer scC6 (Drawer.simple [7] true)).1,
   (C6_amended_setDrawer scC6 (Drawer.custom 2)).2.2.1⟩

/-- An empty scene bound to a trivial controller. -/
def sEmpty : Scene :=
  { gen := 0, ctrlInitProg := [], ctrlUpdateProg := [], objects := [],
    addedObjects := [], drawer := .simple [] false, insideUpdate := false }

/-- The world holding `sEmpty` as the current scene. -/
def wEmpty : World :=
  { scene := some sEmpty, objs := [], gfx := [], nextGen := 1 }

/-- C4 counterexample: `AddObject(o)` appends `o` to the pending buffer
*before* running `o`'s init, so when object 1's init adds object 2, the
pending buffer ends as `[1, 2]` — the parent 1 precedes the init-added 2,
contradicting the claim that 2 would precede 1. -/
theorem C4_counterexample_buffer_order :
    ((runCmd (Cmd.addObject 1 [Cmd.addObject 2 [] []] []) wEmpty).w.scene.map
        Scene.addedObjects = some [1, 2]) ∧
    ¬ ((runCmd (Cmd.addObject 1 [Cmd.addObject 2 [] []] []) wEmpty).w.scene.map
        Scene.addedObjects = some [2, 1]) := by decide

/-- C4 (amended): `AddObject(o)` validates nothing and never fails: it
first appends `o` to the pending-addition buffer and then runs `o`'s init
hook synchronously with the scene (so the init may itself add further
objects or graphics) — in particular, if `o`'s init adds another object
`p`, then `o` precedes `p` in the pending-addition buffer. -/
theorem C4_amended_addObject (w : World) (s : Scene) (oid p : Nat)
    (pip pup oup : List Cmd) (hs : w.scene = some s)
    (hpip : Cmd.tameList pip = true) :
    (runCmd (Cmd.addObject oid [Cmd.addObject p pip pup] oup) w).panic = none ∧
    (∃ s' app,
      (runCmd (Cmd.addObject oid [Cmd.addObject p pip pup] oup) w).w.scene = some s' ∧
      s'.addedObjects = s.addedObjects ++ [oid, p] ++ app ∧
      s'.objects = s.objects) ∧
    (∃ tq, (runCmd (Cmd.addObject oid [Cmd.addObject p pip pup] oup) w).tr
      = Ev.objInit oid :: Ev.objInit p :: tq ∧ Quiet tq) := by
  have hw2s : (addObjWorld oid oup s w).scene =
      some { s with addedObjects := s.addedObjects ++ [oid] } := rfl
  have hw3s : (addObjWorld p pup { s with addedObjects := s.addedObjects ++ [oid] }
      (addObjWorld oid oup s w)).scene =
      some { s with addedObjects := (s.addedObjects ++ [oid]) ++ [p] } := rfl
  obtain ⟨hp3, hq3, hev3⟩ :=
    tame_runCmds pip _ { s with addedObjects := (s.addedObjects ++ [oid]) ++ [p] }
      hw3s hpip
  have hinner := runCmd_addObject p pip pup hw2s
  have hinner_panic : (runCmd (Cmd.addObject p pip pup) (addObjWorld oid oup s w)).panic
      = none := by rw [hinner]; exact hp3
  have hcmds : runCmds [Cmd.addObject p pip pup] (addObjWorld oid oup s w) =
      ⟨(runCmds pip (addObjWorld p pup { s with addedObjects := s.addedObjects ++ [oid] }
          (addObjWorld oid oup s w))).w,
       Ev.objInit p :: (runCmds pip (addObjWorld p pup
          { s with addedObjects := s.addedObjects ++ [oid] } (addObjWorld oid oup s w))).tr,
       none⟩ := by
    rw [runCmds_cons_ok hinner_panic, hinner]
    simp only [runCmds_nil, List.append_nil]
  have houter := runCmd_addObject oid [Cmd.addObject p pip pup] oup hs
  obtain ⟨s4, app, hs4, _, _, hobjs4, _, _, hadd4, _⟩ := hev3.scene _ hw3s
  refine ⟨?_, ⟨s4, app, ?_, ?_, ?_⟩, ?_⟩
  · rw [houter, hcmds]
  · rw [houter, hcmds]; exact hs4
  · rw [hadd4]; simp
  · exact hobjs4
  · refine ⟨(runCmds pip (addObjWorld p pup
      { s with addedObjects := s.addedObjects ++ [oid] } (addObjWorld oid oup s w))).tr,
      ?_, hq3⟩
    rw [houter, hcmds]

/-- C4 amended witness: the amended AddObject contract at a concrete
scene, object 1 whose init adds object 2. -/
theorem C4_amended_addObject_witness :
    wEmpty.scene = some sEmpty ∧ Cmd.tameList [] = true ∧
    ((runCmd (Cmd.addObject 1 [Cmd.addObject 2 [] []] []) wEmpty).panic = none ∧
     (∃ s' app,
       (runCmd (Cmd.addObject 1 [Cmd.addObject 2 [] []] []) wEmpty).w.scene = some s' ∧
       s'.addedObjects = sEmpty.addedObjects ++ [1, 2] ++ app ∧
       s'.objects = sEmpty.objects) ∧
     (∃ tq, (runCmd (Cmd.addObject 1 [Cmd.addObject 2 [] []] []) wEmpty).tr
       = Ev.objInit 1 :: Ev.objInit 2 :: tq ∧ Quiet tq)) :=
  ⟨rfl, rfl, C4_amended_addObject wEmpty sEmpty 1 2 [] [] [] rfl rfl⟩

/-- A world whose single scene object raises a genuine application panic
with payload 7 from its update. -/
def wFail : World :=
  { scene := some { sEmpty with objects := [1] },
    objs := [(1, ⟨false, [Cmd.fail 7]⟩)], gfx := [], nextGen := 1 }

/-- A world whose single scene object calls `ChangeScene` from its
update, disposing the running scene mid-pass. -/
def wCS : World :=
  { scene := some { sEmpty with objects := [1] },
    objs := [(1, ⟨false, [Cmd.changeScene [] []]⟩)], gfx := [], nextGen := 1 }

/-- C3: the `stopUpdate` unwind raised by disposing the running scene is
always absorbed at the update-pass boundary — no `Manager.UpdateWithDelta`
call, on any state, ever surfaces it — while a genuine callback failure is
re-raised unchanged: on every world, whatever panic other than the
`stopUpdate` sentinel the pass body raises, the manager-level update call
surfaces exactly that panic (instantiated at `wFail`, whose object
callback fails with payload 7); and disposing a scene outside any update
pass of that scene is a plain synchronous teardown with no unwind
signal. -/
theorem C3_abort_absorbed_failures_propagate :
    (∀ w : World, (managerUpdateWithDelta w).panic ≠ some Panic.stopUpdate) ∧
    (∀ (w : World) (s : Scene) (p : Panic), w.scene = some s →
      p ≠ Panic.stopUpdate →
      (sceneUpdateImpl (passWorld s w)).panic = some p →
      (managerUpdateWithDelta w).panic = some p) ∧
    ((managerUpdateWithDelta wFail).panic = some (Panic.userFail 7)) ∧
    ((managerUpdateWithDelta wCS).panic = none ∧
      (managerUpdateWithDelta wCS).w.scene.map Scene.gen = some 1) ∧
    (∀ s : Scene, s.insideUpdate = false →
      (s.dispose).2 = none ∧ (s.dispose).1.objects = [] ∧
      (s.dispose).1.addedObjects = [] ∧ (s.dispose).1.drawer = Drawer.nilDrawer ∧
      (s.dispose).1.ctrlUpdateProg = [] ∧ (s.dispose).1.ctrlInitProg = []) := by
  refine ⟨?_, ?_, by decide, ⟨by decide, by decide⟩, ?_⟩
  · intro w
    cases hsc : w.scene with
    | none =>
      show (sceneUpdateWithDelta w).panic ≠ some Panic.stopUpdate
      simp [sceneUpdateWithDelta, hsc]
    | some s =>
      show (sceneUpdateWithDelta w).panic ≠ some Panic.stopUpdate
      rcases hp : (sceneUpdateImpl (passWorld s w)).panic with _ | p
      · rw [sceneUpdateWithDelta_ok hsc hp]
        simp
      · cases p with
        | stopUpdate =>
          rw [sceneUpdateWithDelta_absorb hsc hp]
          simp
        | userFail n =>
          rw [sceneUpdateWithDelta_reraise hsc (fun hx => Panic.noConfusion hx) hp]
          simp
        | nilDeref =>
          rw [sceneUpdateWithDelta_reraise hsc (fun hx => Panic.noConfusion hx) hp]
          simp
        | configError =>
          rw [sceneUpdateWithDelta_reraise hsc (fun hx => Panic.noConfusion hx) hp]
          simp
  · intro w s p hs hne hp
    show (sceneUpdateWithDelta w).panic = some p
    rw [sceneUpdateWithDelta_reraise hs hne hp]
  · intro s h
    simp [Scene.dispose, h]

/-- C3 witness: absorption applied to the concrete mid-pass transition
world, the universal re-raise clause applied to the concrete failing
world `wFail` (its pass body panics with `userFail 7`, and the manager
call surfaces exactly that), and plain teardown applied to a concrete
idle scene. -/
theorem C3_abort_absorbed_witness :
    ((managerUpdateWithDelta wCS).panic ≠ some Panic.stopUpdate) ∧
    (wFail.scene = some { sEmpty with objects := [1] } ∧
     Panic.userFail 7 ≠ Panic.stopUpdate ∧
     (sceneUpdateImpl (passWorld { sEmpty with objects := [1] } wFail)).panic
       = some (Panic.userFail 7) ∧
     (managerUpdateWithDelta wFail).panic = some (Panic.userFail 7)) ∧
    (sEmpty.insideUpdate = false ∧ (sEmpty.dispose).2 = none) :=
  ⟨C3_abort_absorbed_failures_propagate.1 wCS,
   ⟨rfl, by decide, by decide,
    C3_abort_absorbed_failures_propagate.2.1 wFail { sEmpty with objects := [1] }
      (Panic.userFail 7) rfl (by decide) (by decide)⟩,
   rfl, (C3_abort_absorbed_failures_propagate.2.2.2.2 sEmpty rfl).1⟩

/-! ## Helpers for the drawer claims -/

theorem getGfxDisposed_setGfxDisposed (w : World) (gid : Nat) (b : Bool) (g : Nat) :
    getGfxDisposed (setGfxDisposed w gid b) g = if g = gid then b else getGfxDisposed w g := by
  by_cases h : g = gid
  · subst h; simp [getGfxDisposed, setGfxDisposed, List.lookup]
  · have hb : (g == gid) = false := by simpa using h
    simp [getGfxDisposed, setGfxDisposed, List.lookup, h, hb]

theorem getObj_passWorld (s : Scene) (w : World) (x : Nat) :
    getObj (passWorld s w) x = getObj w x := rfl

theorem scene_setGfxDisposed (w : World) (gid : Nat) (b : Bool) :
    (setGfxDisposed w gid b).scene = w.scene := rfl

theorem sceneDraw_simple {w : World} {s : Scene} {G : List Nat}
    (hs : w.scene = some s) (hdr : s.drawer = .simple G true) :
    sceneDraw w =
      ⟨{ w with scene := some { s with drawer := .simple (liveG w G) false } },
       (liveG w G).map Ev.gfxDraw, none⟩ := by
  simp [sceneDraw, hs, hdr]

/-- A completed tame pass: the pass returns normally, every starting
object survives (in order, with the pending buffer flushed behind them),
and the drawer has kept its graphics (possibly extended) with the
`needFilter` dirty flag set by the update hook. -/
theorem tame_pass (w : World) (s : Scene) (G : List Nat) (nf : Bool)
    (hs : w.scene = some s) (hin : s.insideUpdate = false)
    (hdr : s.drawer = .simple G nf)
    (hctrl : Cmd.tameList s.ctrlUpdateProg = true)
    (hfreshc : ∀ oid ∈ s.objects, oid ∉ Cmd.newOidsList s.ctrlUpdateProg)
    (hobjs : TameObjs s.objects w) :
    (managerUpdateWithDelta w).panic = none ∧
    ∃ s' G2 app, (managerUpdateWithDelta w).w.scene = some s' ∧
      s'.gen = s.gen ∧ s'.insideUpdate = false ∧
      s'.ctrlUpdateProg = s.ctrlUpdateProg ∧
      s'.objects = s.objects ++ s.addedObjects ++ app ∧
      s'.addedObjects = [] ∧
      s'.drawer = .simple G2 true ∧ (∀ g ∈ G, g ∈ G2) ∧
      (∀ gid, getGfxDisposed (managerUpdateWithDelta w).w gid = true →
        getGfxDisposed w gid = true) := by
  -- the pass world: the scene with insideUpdate set
  have hsp : (passWorld s w).scene = some { s with insideUpdate := true } := rfl
  -- phase 1: the controller's update, tame
  obtain ⟨hp1, hq1, hev1⟩ :=
    tame_runCmds s.ctrlUpdateProg (passWorld s w) { s with insideUpdate := true } hsp hctrl
  obtain ⟨s1, app1, hs1, hgen1, hin1, hobj1, hci1, hcu1, hadd1, hdr1⟩ :=
    hev1.scene _ hsp
  -- phase 2: the object loop, tame
  have hstore1 : ∀ x ∈ s.objects, getObj (runCmds s.ctrlUpdateProg (passWorld s w)).w x
      = getObj w x := by
    intro x hx
    rw [← getObj_passWorld s w x]
    exact hev1.store x (fun hmem => hfreshc x hx hmem)
  have hto1 : TameObjs s1.objects (runCmds s.ctrlUpdateProg (passWorld s w)).w := by
    rw [hobj1]
    refine ⟨?_, ?_, ?_⟩
    · intro x hx; rw [hstore1 x hx]; exact hobjs.1 x hx
    · intro x hx; rw [hstore1 x hx]; exact hobjs.2.1 x hx
    · intro x hx x' hx'; rw [hstore1 x' hx']; exact hobjs.2.2 x hx x' hx'
  obtain ⟨hp2, hkept2, ⟨fr2, hev2, _⟩, _, _⟩ :=
    objLoop_tame s1.objects (runCmds s.ctrlUpdateProg (passWorld s w)).w s1 hs1 hto1
  obtain ⟨s2, app2, hs2, hgen2, hin2, hobj2, hci2, hcu2, hadd2, hdr2⟩ :=
    hev2.scene _ hs1
  -- assemble the pass
  have himpl := sceneUpdateImpl_eq (passWorld s w) { s with insideUpdate := true } s1 s2
    hsp hp1 hs1 hp2 hs2
  have himplp : (sceneUpdateImpl (passWorld s w)).panic = none := by rw [himpl]
  have hbound := sceneUpdateWithDelta_ok hs himplp
  have hmu : managerUpdateWithDelta w = sceneUpdateWithDelta w := rfl
  -- drawer evolution
  obtain ⟨e1, nf1, hd1⟩ := hdr1 G nf hdr
  obtain ⟨e2, nf2, hd2⟩ := hdr2 _ _ hd1
  refine ⟨by rw [hmu, hbound], ?_⟩
  refine ⟨{ s2 with
              objects := (objLoop s1.objects (runCmds s.ctrlUpdateProg (passWorld s w)).w).kept
                ++ s2.addedObjects
              addedObjects := []
              drawer := s2.drawer.update
              insideUpdate := false },
          G ++ e1 ++ e2, app1 ++ app2, ?_, ?_, rfl, ?_, ?_, rfl, ?_, ?_, ?_⟩
  · rw [hmu, hbound, himpl]
    simp
  · simp only [hgen2, hgen1]
  · simp only [hcu2, hcu1]
  · rw [hkept2, hadd2, hobj1, hadd1]
    simp
  · simp only [hd2, Drawer.update]
  · intro g hg
    simp only [List.append_assoc, List.mem_append]
    exact Or.inl hg
  · intro gid hgd
    have h2 := hev2.gfxMono gid (by
      rw [hmu, hbound] at hgd
      simpa [himpl] using hgd)
    exact hev1.gfxMono gid h2

/-- C7: with the default drawer the disposed-graphics filtering is
deferred — the update hook only marks the dirty flag — and performed
lazily just before the next draw: a graphics object whose disposed flag
becomes true between a completed update pass and the next draw call is
excluded from that draw's rendering, and the live graphics are rendered
in insertion order. -/
theorem C7_lazy_drawer_filtering (w : World) (s : Scene) (G : List Nat) (nf : Bool)
    (gid : Nat)
    (hs : w.scene = some s) (hin : s.insideUpdate = false)
    (hdr : s.drawer = .simple G nf)
    (hctrl : Cmd.tameList s.ctrlUpdateProg = true)
    (hfreshc : ∀ oid ∈ s.objects, oid ∉ Cmd.newOidsList s.ctrlUpdateProg)
    (hobjs : TameObjs s.objects w) :
    (∀ (G' : List Nat) (nf' : Bool), Drawer.update (.simple G' nf') = .simple G' true) ∧
    (∀ (w1 : World) (s1 : Scene) (G1 : List Nat), w1.scene = some s1 →
      s1.drawer = .simple G1 true →
      sceneDraw w1 =
        ⟨{ w1 with scene := some { s1 with drawer := .simple (liveG w1 G1) false } },
         (liveG w1 G1).map Ev.gfxDraw, none⟩) ∧
    (managerUpdateWithDelta w).panic = none ∧
    (∃ G2, (managerUpdateWithDelta w).w.scene.map Scene.drawer
        = some (.simple G2 true) ∧ (∀ g ∈ G, g ∈ G2) ∧
      Ev.gfxDraw gid ∉
        (sceneDraw (setGfxDisposed (managerUpdateWithDelta w).w gid true)).tr ∧
      (sceneDraw (setGfxDisposed (managerUpdateWithDelta w).w gid true)).tr
        = (liveG (setGfxDisposed (managerUpdateWithDelta w).w gid true) G2).map
            Ev.gfxDraw) := by
  obtain ⟨hpass, s', G2, app, hs', _, _, _, _, _, hdr', hsub, _⟩ :=
    tame_pass w s G nf hs hin hdr hctrl hfreshc hobjs
  refine ⟨fun G' nf' => rfl, fun w1 s1 G1 h1 h2 => sceneDraw_simple h1 h2, hpass,
    G2, ?_, hsub, ?_, ?_⟩
  · rw [hs']
    simp [hdr']
  · -- gid is disposed in the post-disposal world, so the lazy filter drops it
    have hsd : (setGfxDisposed (managerUpdateWithDelta w).w gid true).scene
        = some s' := by rw [scene_setGfxDisposed]; exact hs'
    rw [sceneDraw_simple hsd hdr']
    simp only [List.mem_map, not_exists, not_and]
    intro x hx
    have : getGfxDisposed (setGfxDisposed (managerUpdateWithDelta w).w gid true) x
        = false := by
      have := List.of_mem_filter hx
      simpa using this
    intro hxe
    have hxg : x = gid := by
      injection hxe
    rw [hxg, getGfxDisposed_setGfxDisposed, if_pos rfl] at this
    exact Bool.noConfusion this
  · have hsd : (setGfxDisposed (managerUpdateWithDelta w).w gid true).scene
        = some s' := by rw [scene_setGfxDisposed]; exact hs'
    rw [sceneDraw_simple hsd hdr']

/-- The concrete scene for the C7 witness: one live object with a no-op
update, one graphics object (id 5) already registered. -/
def s7 : Scene :=
  { gen := 0, ctrlInitProg := [], ctrlUpdateProg := [], objects := [1],
    addedObjects := [], drawer := .simple [5] false, insideUpdate := false }

/-- The world holding `s7`. -/
def w7 : World :=
  { scene := some s7, objs := [(1, ⟨false, [Cmd.nop]⟩)], gfx := [(5, false)], nextGen := 1 }

/-- C7 witness: after a completed pass on `w7`, disposing graphics 5
before the draw keeps it out of that draw's rendering. -/
theorem C7_lazy_drawer_filtering_witness :
    (managerUpdateWithDelta w7).panic = none ∧
    Ev.gfxDraw 5 ∉ (sceneDraw (setGfxDisposed (managerUpdateWithDelta w7).w 5 true)).tr := by
  obtain ⟨-, -, hp, G2, -, -, hnot, -⟩ :=
    C7_lazy_drawer_filtering w7 s7 [5] false 5 rfl rfl rfl rfl (by decide)
      ⟨by decide, by decide, by decide⟩
  exact ⟨hp, hnot⟩

/-! ## Transfer lemmas for tame object hypotheses -/

theorem TameObjs.weaken {os' os : List Nat} {w : World}
    (hsub : ∀ x ∈ os', x ∈ os) (h : TameObjs os w) : TameObjs os' w :=
  ⟨fun x hx => h.1 x (hsub x hx), fun x hx => h.2.1 x (hsub x hx),
   fun x hx x' hx' => h.2.2 x (hsub x hx) x' (hsub x' hx')⟩

theorem TameObjs.transfer {os : List Nat} {w w' : World} {fresh : List Nat}
    (hev : Evolves fresh w w') (h : TameObjs os w)
    (hdisj : ∀ x ∈ os, x ∉ fresh) : TameObjs os w' := by
  have hst : ∀ x ∈ os, getObj w' x = getObj w x := fun x hx =>
    hev.store x (hdisj x hx)
  exact ⟨fun x hx => by rw [hst x hx]; exact h.1 x hx,
    fun x hx => by rw [hst x hx]; exact h.2.1 x hx,
    fun x hx x' hx' => by rw [hst x' hx']; exact h.2.2 x hx x' hx'⟩

/-- C10: graphics have no deferred activation — `AddGraphics` appends
directly to the default drawer's graphics list (there is no pending
buffer), so a graphics object registered from an object's update during
pass N is in the drawer's list when the pass ends and is rendered by the
very next draw pass. -/
theorem C10_graphics_no_deferred_activation (w : World) (s : Scene) (G : List Nat)
    (nf : Bool) (gid layer j : Nat) (os1 os2 : List Nat)
    (hs : w.scene = some s) (hin : s.insideUpdate = false)
    (hdr : s.drawer = .simple G nf)
    (hctrl : Cmd.tameList s.ctrlUpdateProg = true)
    (hfreshc : ∀ oid ∈ s.objects, oid ∉ Cmd.newOidsList s.ctrlUpdateProg)
    (hobjs : TameObjs s.objects w)
    (hsplit : s.objects = os1 ++ j :: os2)
    (hprog : (getObj w j).prog = [Cmd.addGraphics gid layer]) :
    (∀ (g : List Nat) (nf' : Bool),
      (Drawer.simple g nf').addGraphics gid layer = .simple (g ++ [gid]) true) ∧
    (managerUpdateWithDelta w).panic = none ∧
    ∃ s' G2, (managerUpdateWithDelta w).w.scene = some s' ∧
      s'.drawer = .simple G2 true ∧ gid ∈ G2 ∧
      Ev.gfxDraw gid ∈ (sceneDraw (managerUpdateWithDelta w).w).tr := by
  -- phase 1: the controller's update
  have hsp : (passWorld s w).scene = some { s with insideUpdate := true } := rfl
  obtain ⟨hp1, -, hev1⟩ :=
    tame_runCmds s.ctrlUpdateProg (passWorld s w) { s with insideUpdate := true } hsp hctrl
  obtain ⟨s1, app1, hs1, hgen1, hin1, hobj1, -, hcu1, hadd1, hdr1⟩ := hev1.scene _ hsp
  have htoc : TameObjs s.objects (runCmds s.ctrlUpdateProg (passWorld s w)).w :=
    TameObjs.transfer hev1 hobjs (fun x hx => hfreshc x hx)
  have hs1obj : s1.objects = os1 ++ j :: os2 := by rw [hobj1]; exact hsplit
  -- the loop prefix os1
  have hto1 : TameObjs os1 (runCmds s.ctrlUpdateProg (passWorld s w)).w :=
    htoc.weaken (by intro x hx; rw [hsplit]; exact List.mem_append_left _ hx)
  obtain ⟨hpA, hkeptA, ⟨frA, hevA, hfrA⟩, -, -⟩ :=
    objLoop_tame os1 (runCmds s.ctrlUpdateProg (passWorld s w)).w s1 hs1 hto1
  obtain ⟨sA, appA, hsA, hgenA, hinA, hobjA, -, hcuA, haddA, hdrA⟩ := hevA.scene _ hs1
  -- the ids frA freshly registered by the prefix avoid j and os2
  have hdisjA : ∀ x ∈ j :: os2, x ∉ frA := by
    intro x hx hmem
    obtain ⟨y, hy, hmy⟩ := hfrA x hmem
    have hyall : y ∈ s.objects := by rw [hsplit]; exact List.mem_append_left _ hy
    have hxall : x ∈ s.objects := by rw [hsplit]; exact List.mem_append_right _ hx
    have hst : getObj (runCmds s.ctrlUpdateProg (passWorld s w)).w y = getObj w y :=
      hev1.store y (hfreshc y hyall)
    rw [hst] at hmy
    exact hobjs.2.2 x hxall y hyall hmy
  have htoA : TameObjs (j :: os2) (objLoop os1 (runCmds s.ctrlUpdateProg (passWorld s w)).w).w :=
    TameObjs.transfer hevA
      (htoc.weaken (by intro x hx; rw [hsplit]; exact List.mem_append_right _ hx)) hdisjA
  -- j's stored program is intact
  have hjmem : j ∈ s.objects := by
    rw [hsplit]
    exact List.mem_append_right _ (List.mem_cons_self _ _)
  have hjstore : getObj (objLoop os1 (runCmds s.ctrlUpdateProg (passWorld s w)).w).w j
      = getObj w j := by
    rw [hevA.store j (hdisjA j (List.mem_cons_self _ _)),
        hev1.store j (hfreshc j hjmem)]
    exact getObj_passWorld s w j
  have hjd : (getObj (objLoop os1 (runCmds s.ctrlUpdateProg (passWorld s w)).w).w j).disposed
      = false := htoA.1 j (List.mem_cons_self _ _)
  have hpj : (getObj (objLoop os1 (runCmds s.ctrlUpdateProg (passWorld s w)).w).w j).prog
      = [Cmd.addGraphics gid layer] := by rw [hjstore, hprog]
  -- run j's AddGraphics
  have hrun1 := runCmd_addGraphics gid layer hsA
  have hrun1p : (runCmd (Cmd.addGraphics gid layer)
      (objLoop os1 (runCmds s.ctrlUpdateProg (passWorld s w)).w).w).panic = none := by
    rw [hrun1]
  have hcmdsj : runCmds [Cmd.addGraphics gid layer]
      (objLoop os1 (runCmds s.ctrlUpdateProg (passWorld s w)).w).w =
      ⟨{ putGfx (objLoop os1 (runCmds s.ctrlUpdateProg (passWorld s w)).w).w gid with
           scene := some { sA with drawer := sA.drawer.addGraphics gid layer } },
       [], none⟩ := by
    rw [runCmds_cons_ok hrun1p, hrun1]
    simp only [runCmds_nil, List.append_nil]
  obtain ⟨-, -, hevB⟩ :=
    tame_runCmds [Cmd.addGraphics gid layer]
      (objLoop os1 (runCmds s.ctrlUpdateProg (passWorld s w)).w).w sA hsA rfl
  rw [hcmdsj] at hevB
  set wB : World := { putGfx (objLoop os1 (runCmds s.ctrlUpdateProg (passWorld s w)).w).w gid with
      scene := some { sA with drawer := sA.drawer.addGraphics gid layer } } with hwB
  have hsB : wB.scene = some { sA with drawer := sA.drawer.addGraphics gid layer } := by
    rw [hwB]
  -- the loop suffix os2
  have htoB : TameObjs os2 wB :=
    TameObjs.transfer hevB (htoA.weaken (fun x hx => List.mem_cons_of_mem _ hx))
      (by intro x hx hmem; simp [Cmd.newOidsList, Cmd.newOids] at hmem)
  obtain ⟨hpC, hkeptC, ⟨frC, hevC, -⟩, -, -⟩ := objLoop_tame os2 wB _ hsB htoB
  obtain ⟨sC, appC, hsC, hgenC, hinC, hobjC, -, hcuC, haddC, hdrC⟩ := hevC.scene _ hsB
  -- assemble the loop over the whole snapshot
  have hloopJ : objLoop (j :: os2)
      (objLoop os1 (runCmds s.ctrlUpdateProg (passWorld s w)).w).w =
      ⟨(objLoop os2 wB).w, j :: (objLoop os2 wB).kept,
       Ev.objUpdate j :: (objLoop os2 wB).tr, (objLoop os2 wB).panic⟩ := by
    rw [objLoop_cons_ok hjd (by rw [hpj, hcmdsj])]
    rw [hpj, hcmdsj]
    rfl
  have hfull : (objLoop s1.objects (runCmds s.ctrlUpdateProg (passWorld s w)).w) =
      ⟨(objLoop os2 wB).w,
       (objLoop os1 (runCmds s.ctrlUpdateProg (passWorld s w)).w).kept
         ++ j :: (objLoop os2 wB).kept,
       (objLoop os1 (runCmds s.ctrlUpdateProg (passWorld s w)).w).tr
         ++ Ev.objUpdate j :: (objLoop os2 wB).tr,
       (objLoop os2 wB).panic⟩ := by
    rw [hs1obj, objLoop_append os1 (j :: os2) _ hpA, hloopJ]
  -- the whole pass
  have himpl := sceneUpdateImpl_eq (passWorld s w) { s with insideUpdate := true } s1 sC
    hsp hp1 hs1 (by rw [hfull]; exact hpC) (by rw [hfull]; exact hsC)
  have himplp : (sceneUpdateImpl (passWorld s w)).panic = none := by rw [himpl]
  have hbound := sceneUpdateWithDelta_ok hs himplp
  have hmu : managerUpdateWithDelta w = sceneUpdateWithDelta w := rfl
  -- the drawer chain
  obtain ⟨eC, nfC, hdC⟩ := hdr1 G nf hdr
  obtain ⟨eA, nfA, hdA⟩ := hdrA _ _ hdC
  obtain ⟨eD, nfD, hdD⟩ := hdrC (G ++ eC ++ eA ++ [gid]) true
    (by rw [hdA, Drawer.addGraphics])
  have hgidG2 : gid ∈ G ++ eC ++ eA ++ [gid] ++ eD := by simp
  -- gid's disposed flag stays false through the suffix and the pass end
  have hgfxB : getGfxDisposed wB gid = false := by
    rw [hwB]
    show getGfxDisposed (putGfx _ gid) gid = false
    rw [getGfxDisposed_putGfx, if_pos rfl]
  have hgfxEnd : getGfxDisposed (objLoop os2 wB).w gid = false := by
    rcases hcase : getGfxDisposed (objLoop os2 wB).w gid with _ | _
    · rfl
    · exact absurd (hevC.gfxMono gid hcase) (by rw [hgfxB]; simp)
  -- the final scene
  refine ⟨fun g nf' => rfl, by rw [hmu, hbound], ?_⟩
  refine ⟨{ sC with
      objects := (objLoop s1.objects (runCmds s.ctrlUpdateProg (passWorld s w)).w).kept
        ++ sC.addedObjects
      addedObjects := []
      drawer := sC.drawer.update
      insideUpdate := false },
    G ++ eC ++ eA ++ [gid] ++ eD, ?_, ?_, hgidG2, ?_⟩
  · rw [hmu, hbound, himpl]
    simp only [Option.map_some]
    rw [hfull]
    rfl
  · simp only [hdD, Drawer.update]
  · -- the next draw renders gid
    have hw' : (managerUpdateWithDelta w).w.scene = some { sC with
        objects := (objLoop s1.objects (runCmds s.ctrlUpdateProg (passWorld s w)).w).kept
          ++ sC.addedObjects
        addedObjects := []
        drawer := sC.drawer.update
        insideUpdate := false } := by
      rw [hmu, hbound, himpl]
      simp only [Option.map_some]
      rw [hfull]
      rfl
    have hdrw : ({ sC with
        objects := (objLoop s1.objects (runCmds s.ctrlUpdateProg (passWorld s w)).w).kept
          ++ sC.addedObjects
        addedObjects := []
        drawer := sC.drawer.update
        insideUpdate := false } : Scene).drawer
        = .simple (G ++ eC ++ eA ++ [gid] ++ eD) true := by
      simp only [hdD, Drawer.update]
    rw [sceneDraw_simple hw' hdrw]
    refine List.mem_map.mpr ⟨gid, ?_, rfl⟩
    refine List.mem_filter.mpr ⟨hgidG2, ?_⟩
    have hgfxFinal : getGfxDisposed (managerUpdateWithDelta w).w gid = false := by
      rw [hmu, hbound]
      show getGfxDisposed (sceneUpdateImpl (passWorld s w)).w gid = false
      rw [himpl]
      show getGfxDisposed (objLoop s1.objects (runCmds s.ctrlUpdateProg (passWorld s w)).w).w
        gid = false
      rw [hfull]
      exact hgfxEnd
    rw [hgfxFinal]
    rfl

/-- The concrete scene for the C10 witness: one live object whose update
registers graphics 9. -/
def s10 : Scene :=
  { gen := 0, ctrlInitProg := [], ctrlUpdateProg := [], objects := [1],
    addedObjects := [], drawer := .simple [] false, insideUpdate := false }

/-- The world holding `s10`. -/
def w10 : World :=
  { scene := some s10, objs := [(1, ⟨false, [Cmd.addGraphics 9 0]⟩)],
    gfx := [], nextGen := 1 }

/-- C10 witness: graphics 9, registered mid-pass, is rendered by the very
next draw. -/
theorem C10_graphics_no_deferred_activation_witness :
    (managerUpdateWithDelta w10).panic = none ∧
    Ev.gfxDraw 9 ∈ (sceneDraw (managerUpdateWithDelta w10).w).tr := by
  obtain ⟨-, hp, s', G2, -, -, -, hmem⟩ :=
    C10_graphics_no_deferred_activation w10 s10 [] false 9 0 1 [] [] rfl rfl rfl rfl
      (by decide) ⟨by decide, by decide, by decide⟩ rfl rfl
  exact ⟨hp, hmem⟩

/-- C2: a completed (non-aborted) update pass performs exactly: the
controller's update first, from the initial state; then a single-pass,
in-place filter of the active-list snapshot — an object whose disposed
flag reads true at its visit is dropped without an update call, every
other object is updated and kept, survivors keeping their relative
order; then the drawer's update hook; and finally the pending-addition
buffer is appended to the active list in insertion order and cleared. -/
theorem C2_update_pass_order (w : World) (s : Scene) (G : List Nat) (nf : Bool)
    (hs : w.scene = some s) (hin : s.insideUpdate = true)
    (hdr : s.drawer = .simple G nf)
    (hok : (sceneUpdateImpl w).panic = none) :
    ∃ w1 t1 w2 kept t2,
      runCmds s.ctrlUpdateProg w = ⟨w1, t1, none⟩ ∧
      Filters s.objects w1 w2 kept t2 ∧
      kept.Sublist s.objects ∧
      ∃ s2, w2.scene = some s2 ∧ s2.gen = s.gen ∧
        (sceneUpdateImpl w).w.scene = some { s2 with
            objects := kept ++ s2.addedObjects
            addedObjects := []
            drawer := s2.drawer.update } ∧
        (sceneUpdateImpl w).tr
          = Ev.ctrlUpdate s.gen :: t1 ++ t2
              ++ [Ev.drawerUpdate s.gen, Ev.flush s.gen] := by
  rcases hp1 : (runCmds s.ctrlUpdateProg w).panic with _ | p
  case some =>
    rw [sceneUpdateImpl_ctrl_panic w s p hs hp1] at hok
    exact absurd hok (by simp)
  obtain ⟨s1, app1, hs1, hgen1, hins1, hobj1, hci1, hcu1, hadd1⟩ :=
    ok_runCmds_scene s.ctrlUpdateProg w s hs hin hp1
  rcases hp2 : (objLoop s1.objects (runCmds s.ctrlUpdateProg w).w).panic with _ | p
  case some =>
    rw [sceneUpdateImpl_loop_panic w s s1 p hs hp1 hs1 hp2] at hok
    exact absurd hok (by simp)
  obtain ⟨s2, app2, hs2, hgen2, hins2, hobj2, hci2, hcu2, hadd2⟩ :=
    ok_objLoop_scene s1.objects _ s1 hs1 hins1 hp2
  have himpl := sceneUpdateImpl_eq w s s1 s2 hs hp1 hs1 hp2 hs2
  have hFil := objLoop_filters s1.objects (runCmds s.ctrlUpdateProg w).w hp2
  refine ⟨(runCmds s.ctrlUpdateProg w).w, (runCmds s.ctrlUpdateProg w).tr,
    (objLoop s1.objects (runCmds s.ctrlUpdateProg w).w).w,
    (objLoop s1.objects (runCmds s.ctrlUpdateProg w).w).kept,
    (objLoop s1.objects (runCmds s.ctrlUpdateProg w).w).tr,
    ?_, ?_, ?_, s2, hs2, hgen2.trans hgen1, ?_, ?_⟩
  · rw [← hp1]
  · rw [← hobj1]
    exact hFil
  · rw [← hobj1]
    exact hFil.sublist
  · rw [himpl]
  · rw [himpl]
    rw [hgen2, hgen1]

/-- The concrete scene for the C2 witness (a pass in flight: one live
object, one already-disposed object, one pending addition). -/
def s2w : Scene :=
  { gen := 4, ctrlInitProg := [], ctrlUpdateProg := [Cmd.nop], objects := [1, 2],
    addedObjects := [3], drawer := .simple [] false, insideUpdate := true }

/-- The world holding `s2w`; object 2 is already disposed. -/
def w2w : World :=
  { scene := some s2w,
    objs := [(1, ⟨false, [Cmd.nop]⟩), (2, ⟨true, [Cmd.fail 5]⟩), (3, ⟨false, []⟩)],
    gfx := [], nextGen := 5 }

/-- C2 witness: the pass-order decomposition applied to `w2w`. -/
theorem C2_update_pass_order_witness :
    (sceneUpdateImpl w2w).panic = none ∧
    ∃ w1 t1 w2 kept t2,
      runCmds s2w.ctrlUpdateProg w2w = ⟨w1, t1, none⟩ ∧
      Filters s2w.objects w1 w2 kept t2 ∧
      kept.Sublist s2w.objects ∧
      ∃ s2, w2.scene = some s2 ∧ s2.gen = s2w.gen ∧
        (sceneUpdateImpl w2w).w.scene = some { s2 with
            objects := kept ++ s2.addedObjects
            addedObjects := []
            drawer := s2.drawer.update } ∧
        (sceneUpdateImpl w2w).tr
          = Ev.ctrlUpdate s2w.gen :: t1 ++ t2
              ++ [Ev.drawerUpdate s2w.gen, Ev.flush s2w.gen] :=
  ⟨by decide, C2_update_pass_order w2w s2w [] false rfl rfl rfl (by decide)⟩

/-- C1: invoking `ChangeScene` from inside scene A's update at object `k`
(the active list being `os1 ++ k :: os2`) runs A's controller update and
the updates of every object before `k`; objects after `k`, A's drawer
update and A's pending-addition flush never run; the new scene is installed
as current and its controller's Init runs — its additions entering the
normal pending flow of the new scene — before the old scene is disposed,
and the Manager-level update call returns with no error. -/
theorem C1_transition_atomicity (w : World) (s : Scene) (G : List Nat) (nf : Bool)
    (os1 os2 : List Nat) (k : Nat) (ipB upB : List Cmd)
    (hs : w.scene = some s) (hin : s.insideUpdate = false)
    (hdr : s.drawer = .simple G nf)
    (hctrl : Cmd.tameList s.ctrlUpdateProg = true)
    (hfreshc : ∀ oid ∈ s.objects, oid ∉ Cmd.newOidsList s.ctrlUpdateProg)
    (hlive : ∀ oid ∈ s.objects, (getObj w oid).disposed = false)
    (hsplit : s.objects = os1 ++ k :: os2)
    (htame1 : ∀ oid ∈ os1, Cmd.tameList (getObj w oid).prog = true)
    (hfresh1 : ∀ oid ∈ s.objects, ∀ oid' ∈ os1, oid ∉ Cmd.newOidsList (getObj w oid').prog)
    (hk : (getObj w k).prog = [Cmd.changeScene ipB upB])
    (hipB : Cmd.tameList ipB = true)
    (hnd : s.objects.Nodup) :
    (managerUpdateWithDelta w).panic = none ∧
    (∃ tc tpre tB,
      (managerUpdateWithDelta w).tr
        = Ev.ctrlUpdate s.gen :: (tc ++ (tpre ++ (Ev.objUpdate k ::
            (Ev.ctrlInit w.nextGen :: (tB ++ [Ev.sceneDisposed s.gen]))))) ∧
      Quiet tc ∧ Quiet tB ∧
      (∀ e ∈ tpre, (∃ oid ∈ os1, e = Ev.objUpdate oid) ∨ ∃ oid, e = Ev.objInit oid) ∧
      (∀ i ∈ os1, Ev.objUpdate i ∈ tpre)) ∧
    (∀ j ∈ os2, Ev.objUpdate j ∉ (managerUpdateWithDelta w).tr) ∧
    (Ev.drawerUpdate s.gen ∉ (managerUpdateWithDelta w).tr) ∧
    (∀ g, Ev.flush g ∉ (managerUpdateWithDelta w).tr) ∧
    (∃ sB, (managerUpdateWithDelta w).w.scene = some sB ∧
      sB.gen = w.nextGen ∧ sB.ctrlUpdateProg = upB ∧ sB.ctrlInitProg = ipB ∧
      sB.objects = [] ∧ sB.insideUpdate = false) := by
  -- distinctness facts
  have hnd' : (os1 ++ k :: os2).Nodup := by rw [← hsplit]; exact hnd
  obtain ⟨-, hnd2, hdisj⟩ := List.nodup_append.mp hnd'
  have hknotos2 : k ∉ os2 := (List.nodup_cons.mp hnd2).1
  -- phase 1: the controller's update
  have hsp : (passWorld s w).scene = some { s with insideUpdate := true } := rfl
  obtain ⟨hp1, hq1, hev1⟩ :=
    tame_runCmds s.ctrlUpdateProg (passWorld s w) { s with insideUpdate := true } hsp hctrl
  obtain ⟨s1, app1, hs1, hgen1, hin1, hobj1, -, hcu1, hadd1, hdr1⟩ := hev1.scene _ hsp
  have hobj1' : s1.objects = os1 ++ k :: os2 := by rw [hobj1]; exact hsplit
  -- the loop prefix os1
  have htow : TameObjs os1 w :=
    ⟨fun x hx => hlive x (by rw [hsplit]; exact List.mem_append_left _ hx),
     htame1,
     fun x hx x' hx' => hfresh1 x (by rw [hsplit]; exact List.mem_append_left _ hx) x' hx'⟩
  have hto1 : TameObjs os1 (runCmds s.ctrlUpdateProg (passWorld s w)).w :=
    TameObjs.transfer hev1 htow
      (fun x hx => hfreshc x (by rw [hsplit]; exact List.mem_append_left _ hx))
  obtain ⟨hpA, hkeptA, ⟨frA, hevA, hfrA⟩, htrA, hoccA⟩ :=
    objLoop_tame os1 (runCmds s.ctrlUpdateProg (passWorld s w)).w s1 hs1 hto1
  obtain ⟨sA, appA, hsA, hgenA, hinA, hobjA, -, hcuA, haddA, hdrA⟩ := hevA.scene _ hs1
  have hkmem : k ∈ s.objects := by
    rw [hsplit]; exact List.mem_append_right _ (List.mem_cons_self _ _)
  -- k's store entry survives the controller and the prefix
  have hknotfrA : k ∉ frA := by
    intro hmem
    obtain ⟨y, hy, hmy⟩ := hfrA k hmem
    have hyall : y ∈ s.objects := by rw [hsplit]; exact List.mem_append_left _ hy
    have hst : getObj (runCmds s.ctrlUpdateProg (passWorld s w)).w y = getObj w y :=
      hev1.store y (hfreshc y hyall)
    rw [hst] at hmy
    exact hfresh1 k hkmem y hy hmy
  have hstore_k : getObj (objLoop os1 (runCmds s.ctrlUpdateProg (passWorld s w)).w).w k
      = getObj w k := by
    rw [hevA.store k hknotfrA, hev1.store k (hfreshc k hkmem)]
    exact getObj_passWorld s w k
  have hkd : (getObj (objLoop os1 (runCmds s.ctrlUpdateProg (passWorld s w)).w).w k).disposed
      = false := by rw [hstore_k]; exact hlive k hkmem
  have hkp : (getObj (objLoop os1 (runCmds s.ctrlUpdateProg (passWorld s w)).w).w k).prog
      = [Cmd.changeScene ipB upB] := by rw [hstore_k, hk]
  -- generation bookkeeping
  have hgenwA : (objLoop os1 (runCmds s.ctrlUpdateProg (passWorld s w)).w).w.nextGen
      = w.nextGen := by
    rw [hevA.nextGen, hev1.nextGen]
    rfl
  have hgenA' : sA.gen = s.gen := by rw [hgenA, hgen1]
  have hinA' : sA.insideUpdate = true := by rw [hinA, hin1]
  -- the new scene's Init (tame)
  have hchg : (chgWorld ipB upB
      (objLoop os1 (runCmds s.ctrlUpdateProg (passWorld s w)).w).w).scene
      = some (newSceneW
          (objLoop os1 (runCmds s.ctrlUpdateProg (passWorld s w)).w).w.nextGen ipB upB) := rfl
  obtain ⟨hpB, hqB, hevB⟩ :=
    tame_runCmds ipB (chgWorld ipB upB
      (objLoop os1 (runCmds s.ctrlUpdateProg (passWorld s w)).w).w) _ hchg hipB
  obtain ⟨sB, appB, hsB, hgenB, hinB, hobjB, hciB, hcuB, haddB, -⟩ := hevB.scene _ hchg
  -- disposing the previous scene mid-update raises the unwind signal
  have hdispose : (sA.dispose).2 = some Panic.stopUpdate := by
    rw [Scene.dispose, if_pos hinA']
  have hcs := runCmd_changeScene_ok_prev hpB hsA
  have hcsp : (runCmd (Cmd.changeScene ipB upB)
      (objLoop os1 (runCmds s.ctrlUpdateProg (passWorld s w)).w).w).panic
      = some Panic.stopUpdate := by
    rw [hcs]; exact hdispose
  have hkrun : runCmds [Cmd.changeScene ipB upB]
      (objLoop os1 (runCmds s.ctrlUpdateProg (passWorld s w)).w).w =
      ⟨(runCmds ipB (chgWorld ipB upB
          (objLoop os1 (runCmds s.ctrlUpdateProg (passWorld s w)).w).w)).w,
       Ev.ctrlInit (objLoop os1 (runCmds s.ctrlUpdateProg (passWorld s w)).w).w.nextGen
         :: (runCmds ipB (chgWorld ipB upB
              (objLoop os1 (runCmds s.ctrlUpdateProg (passWorld s w)).w).w)).tr
         ++ [Ev.sceneDisposed sA.gen],
       some Panic.stopUpdate⟩ := by
    rw [runCmds_cons_panic hcsp, hcs]
  -- the loop aborts at k
  have hloopk : objLoop (k :: os2)
      (objLoop os1 (runCmds s.ctrlUpdateProg (passWorld s w)).w).w =
      ⟨(runCmds ipB (chgWorld ipB upB
          (objLoop os1 (runCmds s.ctrlUpdateProg (passWorld s w)).w).w)).w,
       [],
       Ev.objUpdate k ::
         (Ev.ctrlInit (objLoop os1 (runCmds s.ctrlUpdateProg (passWorld s w)).w).w.nextGen
           :: (runCmds ipB (chgWorld ipB upB
                (objLoop os1 (runCmds s.ctrlUpdateProg (passWorld s w)).w).w)).tr
           ++ [Ev.sceneDisposed sA.gen]),
       some Panic.stopUpdate⟩ := by
    rw [objLoop_cons_panic hkd (by rw [hkp, hkrun])]
    rw [hkp, hkrun]
  have hfull := objLoop_append os1 (k :: os2)
    (runCmds s.ctrlUpdateProg (passWorld s w)).w hpA
  have hlp : (objLoop s1.objects (runCmds s.ctrlUpdateProg (passWorld s w)).w).panic
      = some Panic.stopUpdate := by
    rw [hobj1', hfull, hloopk]
  have himpl := sceneUpdateImpl_loop_panic (passWorld s w) { s with insideUpdate := true }
    s1 Panic.stopUpdate hsp hp1 hs1 hlp
  have hb := sceneUpdateWithDelta_absorb hs (by rw [himpl])
  have hmu : managerUpdateWithDelta w = sceneUpdateWithDelta w := rfl
  -- the trace equation
  have hTr : (managerUpdateWithDelta w).tr
      = Ev.ctrlUpdate s.gen :: ((runCmds s.ctrlUpdateProg (passWorld s w)).tr
          ++ ((objLoop os1 (runCmds s.ctrlUpdateProg (passWorld s w)).w).tr
            ++ (Ev.objUpdate k ::
              (Ev.ctrlInit w.nextGen ::
                ((runCmds ipB (chgWorld ipB upB
                    (objLoop os1 (runCmds s.ctrlUpdateProg (passWorld s w)).w).w)).tr
                  ++ [Ev.sceneDisposed s.gen]))))) := by
    rw [hmu, hb, himpl, hobj1', hfull, hloopk]
    simp only [List.cons_append, List.append_assoc]
    rw [hgenwA, hgenA']
  refine ⟨by rw [hmu, hb], ?_, ?_, ?_, ?_, ?_⟩
  · exact ⟨(runCmds s.ctrlUpdateProg (passWorld s w)).tr,
      (objLoop os1 (runCmds s.ctrlUpdateProg (passWorld s w)).w).tr,
      (runCmds ipB (chgWorld ipB upB
        (objLoop os1 (runCmds s.ctrlUpdateProg (passWorld s w)).w).w)).tr,
      hTr, hq1, hqB, htrA, hoccA⟩
  · intro j hj hmem
    rw [hTr] at hmem
    simp only [List.mem_cons, List.mem_append, List.mem_singleton,
      List.not_mem_nil, or_false] at hmem
    rcases hmem with h | h | h | h | h | h | h
    · exact Ev.noConfusion h
    · obtain ⟨o, ho⟩ := hq1 _ h
      exact Ev.noConfusion ho
    · rcases htrA _ h with ⟨o, ho1, ho2⟩ | ⟨o, ho⟩
      · have : j = o := by injection ho2
        exact hdisj (this ▸ ho1) (List.mem_cons_of_mem _ hj)
      · exact Ev.noConfusion ho
    · have : j = k := by injection h
      exact hknotos2 (this ▸ hj)
    · exact Ev.noConfusion h
    · obtain ⟨o, ho⟩ := hqB _ h
      exact Ev.noConfusion ho
    · exact Ev.noConfusion h
  · intro hmem
    rw [hTr] at hmem
    simp only [List.mem_cons, List.mem_append, List.mem_singleton,
      List.not_mem_nil, or_false] at hmem
    rcases hmem with h | h | h | h | h | h | h
    · exact Ev.noConfusion h
    · obtain ⟨o, ho⟩ := hq1 _ h
      exact Ev.noConfusion ho
    · rcases htrA _ h with ⟨o, ho1, ho2⟩ | ⟨o, ho⟩
      · exact Ev.noConfusion ho2
      · exact Ev.noConfusion ho
    · exact Ev.noConfusion h
    · exact Ev.noConfusion h
    · obtain ⟨o, ho⟩ := hqB _ h
      exact Ev.noConfusion ho
    · exact Ev.noConfusion h
  · intro g hmem
    rw [hTr] at hmem
    simp only [List.mem_cons, List.mem_append, List.mem_singleton,
      List.not_mem_nil, or_false] at hmem
    rcases hmem with h | h | h | h | h | h | h
    · exact Ev.noConfusion h
    · obtain ⟨o, ho⟩ := hq1 _ h
      exact Ev.noConfusion ho
    · rcases htrA _ h with ⟨o, ho1, ho2⟩ | ⟨o, ho⟩
      · exact Ev.noConfusion ho2
      · exact Ev.noConfusion ho
    · exact Ev.noConfusion h
    · exact Ev.noConfusion h
    · obtain ⟨o, ho⟩ := hqB _ h
      exact Ev.noConfusion ho
    · exact Ev.noConfusion h
  · refine ⟨sB, ?_, ?_, ?_, ?_, ?_, ?_⟩
    · rw [hmu, hb, himpl]
      show (objLoop s1.objects (runCmds s.ctrlUpdateProg (passWorld s w)).w).w.scene
        = some sB
      rw [hobj1', hfull, hloopk]
      exact hsB
    · rw [hgenB]
      exact hgenwA
    · rw [hcuB]; rfl
    · rw [hciB]; rfl
    · rw [hobjB]; rfl
    · rw [hinB]; rfl

/-- The concrete scene for the C1 witness: objects 1, 2, 3; object 2's
update changes the scene to a controller whose Init adds object 9. -/
def sC1 : Scene :=
  { gen := 0, ctrlInitProg := [], ctrlUpdateProg := [], objects := [1, 2, 3],
    addedObjects := [], drawer := .simple [] false, insideUpdate := false }

/-- The world holding `sC1`. -/
def wC1 : World :=
  { scene := some sC1,
    objs := [(1, ⟨false, [Cmd.nop]⟩),
             (2, ⟨false, [Cmd.changeScene [Cmd.addObject 9 [] []] [Cmd.nop]]⟩),
             (3, ⟨false, [Cmd.nop]⟩)],
    gfx := [], nextGen := 1 }

/-- C1 witness: transition atomicity applied to `wC1` — no error
surfaces, object 3 is never updated, scene 0's drawer hook never runs. -/
theorem C1_transition_atomicity_witness :
    (managerUpdateWithDelta wC1).panic = none ∧
    Ev.objUpdate 3 ∉ (managerUpdateWithDelta wC1).tr ∧
    Ev.drawerUpdate 0 ∉ (managerUpdateWithDelta wC1).tr := by
  obtain ⟨hp, -, hnos2, hnodr, -, -⟩ :=
    C1_transition_atomicity wC1 sC1 [] false [1] [3] 2 [Cmd.addObject 9 [] []] [Cmd.nop]
      rfl rfl rfl rfl (by decide) (by decide) rfl (by decide) (by decide) rfl rfl
      (by decide)
  exact ⟨hp, hnos2 3 (by decide), hnodr⟩

/-- The loop over live objects with inert programs: everyone survives,
the trace is exactly their update events, and the object store, pending
buffer and scene core are untouched. -/
theorem objLoop_inert (os : List Nat) (w : World) (s : Scene) (hs : w.scene = some s)
    (hflag : ∀ oid ∈ os, (getObj w oid).disposed = false)
    (hinert : ∀ oid ∈ os, inertList (getObj w oid).prog = true) :
    (objLoop os w).panic = none ∧ (objLoop os w).kept = os ∧
    (objLoop os w).tr = os.map Ev.objUpdate ∧
    (objLoop os w).w.objs = w.objs ∧ (objLoop os w).w.nextGen = w.nextGen ∧
    (∀ gid, getGfxDisposed (objLoop os w).w gid = true → getGfxDisposed w gid = true) ∧
    ∃ s', (objLoop os w).w.scene = some s' ∧ s'.gen = s.gen ∧
      s'.insideUpdate = s.insideUpdate ∧ s'.objects = s.objects ∧
      s'.addedObjects = s.addedObjects ∧ s'.ctrlInitProg = s.ctrlInitProg ∧
      s'.ctrlUpdateProg = s.ctrlUpdateProg := by
  induction os generalizing w s with
  | nil =>
    exact ⟨rfl, rfl, rfl, rfl, rfl, fun _ h => h, s, by simpa [objLoop_nil] using hs,
      rfl, rfl, rfl, rfl, rfl, rfl⟩
  | cons oid rest ih =>
    have hd : (getObj w oid).disposed = false := hflag oid (List.mem_cons_self _ _)
    obtain ⟨hp, ht, ho, hg, hgfx, s1, hsc1, e2, e3, e4, e5, e6, e7⟩ :=
      inert_runCmds (getObj w oid).prog w s hs (hinert oid (List.mem_cons_self _ _))
    have hgetEq : ∀ x, getObj (runCmds (getObj w oid).prog w).w x = getObj w x := by
      intro x
      show ((runCmds (getObj w oid).prog w).w.objs.lookup x).getD ⟨false, []⟩
        = (w.objs.lookup x).getD ⟨false, []⟩
      rw [ho]
    obtain ⟨ihp, ihkept, ihtr, iho, ihg, ihgfx, s2, hsc2, f2, f3, f4, f5, f6, f7⟩ :=
      ih (runCmds (getObj w oid).prog w).w s1 hsc1
        (fun x hx => by rw [hgetEq x]; exact hflag x (List.mem_cons_of_mem _ hx))
        (fun x hx => by rw [hgetEq x]; exact hinert x (List.mem_cons_of_mem _ hx))
    rw [objLoop_cons_ok hd hp]
    refine ⟨ihp, by rw [ihkept], ?_, by rw [iho, ho], by rw [ihg, hg], ?_,
      s2, hsc2, f2.trans e2, f3.trans e3, f4.trans e4, f5.trans e5,
      f6.trans e6, f7.trans e7⟩
    · show Ev.objUpdate oid :: (runCmds (getObj w oid).prog w).tr
        ++ (objLoop rest (runCmds (getObj w oid).prog w).w).tr
        = Ev.objUpdate oid :: rest.map Ev.objUpdate
      rw [ht, ihtr]
      rfl
    · intro gid hgd
      exact hgfx gid (ihgfx gid hgd)

/-! ## Helpers for the deferred-activation claim -/

theorem getObj_addObjWorld (oid : Nat) (up : List Cmd) (s : Scene) (w : World) (x : Nat) :
    getObj (addObjWorld oid up s w) x = if x = oid then ⟨false, up⟩ else getObj w x := by
  have h : getObj (addObjWorld oid up s w) x = getObj (putObj w oid ⟨false, up⟩) x := rfl
  rw [h, getObj_putObj]

/-- `AddObject` of an object with an empty Init. -/
theorem runCmds_addOne (a : Nat) (prog : List Cmd) {w : World} {s : Scene}
    (hs : w.scene = some s) :
    runCmds [Cmd.addObject a [] prog] w = ⟨addObjWorld a prog s w, [Ev.objInit a], none⟩ := by
  have h1 : runCmd (Cmd.addObject a [] prog) w
      = ⟨addObjWorld a prog s w, [Ev.objInit a], none⟩ := by
    rw [runCmd_addObject a [] prog hs]
    rfl
  rw [runCmds_cons_ok (by rw [h1]), h1]
  simp [runCmds_nil]

/-- `AddObject` of an object whose Init itself adds an object with an
empty Init: parent first, then the nested addition. -/
theorem runCmds_addTwo (q r : Nat) (qup rup : List Cmd) {w : World} {s : Scene}
    (hs : w.scene = some s) :
    runCmds [Cmd.addObject q [Cmd.addObject r [] rup] qup] w =
      ⟨addObjWorld r rup { s with addedObjects := s.addedObjects ++ [q] }
         (addObjWorld q qup s w),
       [Ev.objInit q, Ev.objInit r], none⟩ := by
  have hs2 : (addObjWorld q qup s w).scene
      = some { s with addedObjects := s.addedObjects ++ [q] } := rfl
  have hinner := runCmds_addOne r rup hs2
  have h1 : runCmd (Cmd.addObject q [Cmd.addObject r [] rup] qup) w =
      ⟨addObjWorld r rup { s with addedObjects := s.addedObjects ++ [q] }
         (addObjWorld q qup s w),
       [Ev.objInit q, Ev.objInit r], none⟩ := by
    rw [runCmd_addObject q [Cmd.addObject r [] rup] qup hs, hinner]
  rw [runCmds_cons_ok (by rw [h1]), h1]
  simp [runCmds_nil]

/-- A live object's update event heads the loop's trace whatever its
program then does. -/
theorem objUpdate_head_mem (oid : Nat) (rest : List Nat) (w : World)
    (hd : (getObj w oid).disposed = false) :
    Ev.objUpdate oid ∈ (objLoop (oid :: rest) w).tr := by
  rcases hp : (runCmds (getObj w oid).prog w).panic with _ | p
  · rw [objLoop_cons_ok hd hp]
    exact List.mem_cons_self _ _
  · rw [objLoop_cons_panic hd hp]
    exact List.mem_cons_self _ _

/-- An event of the object loop's trace is in the pass body's trace. -/
theorem loop_tr_mem_impl (w0 : World) (s0 s1 : Scene) (e : Ev)
    (hs : w0.scene = some s0)
    (h1 : (runCmds s0.ctrlUpdateProg w0).panic = none)
    (hs1 : (runCmds s0.ctrlUpdateProg w0).w.scene = some s1)
    (hin1 : s1.insideUpdate = true)
    (he : e ∈ (objLoop s1.objects (runCmds s0.ctrlUpdateProg w0).w).tr) :
    e ∈ (sceneUpdateImpl w0).tr := by
  rcases hlp : (objLoop s1.objects (runCmds s0.ctrlUpdateProg w0).w).panic with _ | p
  · obtain ⟨s2, app, hs2, -⟩ := ok_objLoop_scene _ _ s1 hs1 hin1 hlp
    rw [sceneUpdateImpl_eq w0 s0 s1 s2 hs h1 hs1 hlp hs2]
    simp [he]
  · rw [sceneUpdateImpl_loop_panic w0 s0 s1 p hs h1 hs1 hlp]
    simp [he]

/-- An event of the pass body's trace survives the boundary guard,
whatever the pass's outcome. -/
theorem impl_tr_mem_manager (w1 : World) (s6 : Scene) (e : Ev)
    (hs : w1.scene = some s6)
    (he : e ∈ (sceneUpdateImpl (passWorld s6 w1)).tr) :
    e ∈ (managerUpdateWithDelta w1).tr := by
  have hmu : managerUpdateWithDelta w1 = sceneUpdateWithDelta w1 := rfl
  rcases hp : (sceneUpdateImpl (passWorld s6 w1)).panic with _ | p
  · rw [hmu, sceneUpdateWithDelta_ok hs hp]
    exact he
  · cases p with
    | stopUpdate =>
      rw [hmu, sceneUpdateWithDelta_absorb hs hp]
      exact he
    | userFail n =>
      rw [hmu, sceneUpdateWithDelta_reraise hs (fun hx => Panic.noConfusion hx) hp]
      exact he
    | nilDeref =>
      rw [hmu, sceneUpdateWithDelta_reraise hs (fun hx => Panic.noConfusion hx) hp]
      exact he
    | configError =>
      rw [hmu, sceneUpdateWithDelta_reraise hs (fun hx => Panic.noConfusion hx) hp]
      exact he

/-- Scene A with the pass flag raised (start of the pass body). -/
def c5S0 (s : Scene) : Scene := { s with insideUpdate := true }

/-- ... after the controller's update added `c` to the pending buffer. -/
def c5S1 (s : Scene) (c : Nat) : Scene :=
  { c5S0 s with addedObjects := (c5S0 s).addedObjects ++ [c] }

/-- ... after object `j`'s update added `q`. -/
def c5S1q (s : Scene) (c q : Nat) : Scene :=
  { c5S1 s c with addedObjects := (c5S1 s c).addedObjects ++ [q] }

/-- ... after `q`'s init added `r`. -/
def c5S2 (s : Scene) (c q r : Nat) : Scene :=
  { c5S1q s c q with addedObjects := (c5S1q s c q).addedObjects ++ [r] }

/-- Scene A after the whole pass: the three additions flushed behind the
survivor `j`, the buffer cleared, the pass flag dropped again. -/
def c5S6 (s : Scene) (j c q r : Nat) : Scene :=
  { s with
      objects := [j] ++ (((s.addedObjects ++ [c]) ++ [q]) ++ [r])
      addedObjects := []
      drawer := s.drawer.update
      insideUpdate := false }

/-- In a loop over `[c, q, r]` against a store where all three are live,
`c` and `q` run inert programs and `r` is arbitrary, each of the three
receives its update callback. -/
theorem c5_tail_mem (wt : World) (st : Scene) (c q r : Nat) (cup qup rup : List Cmd)
    (hs : wt.scene = some st)
    (hgc : getObj wt c = ⟨false, cup⟩) (hgq : getObj wt q = ⟨false, qup⟩)
    (hgr : getObj wt r = ⟨false, rup⟩)
    (hcup : inertList cup = true) (hqup : inertList qup = true) :
    Ev.objUpdate c ∈ (objLoop [c, q, r] wt).tr ∧
    Ev.objUpdate q ∈ (objLoop [c, q, r] wt).tr ∧
    Ev.objUpdate r ∈ (objLoop [c, q, r] wt).tr := by
  obtain ⟨hip, hik, hit, hio, -, -, -⟩ := objLoop_inert [c, q] wt st hs
    (by
      intro x hx
      simp only [List.mem_cons, List.not_mem_nil, or_false] at hx
      rcases hx with rfl | rfl
      · rw [hgc]
      · rw [hgq])
    (by
      intro x hx
      simp only [List.mem_cons, List.not_mem_nil, or_false] at hx
      rcases hx with rfl | rfl
      · rw [hgc]; exact hcup
      · rw [hgq]; exact hqup)
  have htr3 : (objLoop [c, q, r] wt).tr
      = (objLoop [c, q] wt).tr ++ (objLoop [r] (objLoop [c, q] wt).w).tr := by
    rw [show ([c, q, r] : List Nat) = [c, q] ++ [r] from rfl,
      objLoop_append [c, q] [r] wt hip]
  have hgr2 : (getObj (objLoop [c, q] wt).w r).disposed = false := by
    have hh : getObj (objLoop [c, q] wt).w r = getObj wt r := by
      simp [getObj, hio]
    rw [hh, hgr]
  have hm := objUpdate_head_mem r [] _ hgr2
  refine ⟨?_, ?_, ?_⟩
  · rw [htr3, hit]
    exact List.mem_append_left _ (by simp)
  · rw [htr3, hit]
    exact List.mem_append_left _ (by simp)
  · rw [htr3]
    exact List.mem_append_right _ hm

/-- Pass N+1's object loop over `[j, c, q, r]`: `j` re-runs its adding
program, then each of the three previously deferred objects receives its
update callback. -/
theorem c5_pass2_loop_mem (wt : World) (st : Scene) (j c q r : Nat)
    (cup qup rup : List Cmd)
    (hs : wt.scene = some st)
    (hgj : getObj wt j = ⟨false, [Cmd.addObject q [Cmd.addObject r [] rup] qup]⟩)
    (hgc : getObj wt c = ⟨false, cup⟩)
    (hgq : getObj wt q = ⟨false, qup⟩)
    (hgr : getObj wt r = ⟨false, rup⟩)
    (hcup : inertList cup = true) (hqup : inertList qup = true)
    (hcq : c ≠ q) (hcr : c ≠ r) (hqr : q ≠ r) :
    Ev.objUpdate c ∈ (objLoop [j, c, q, r] wt).tr ∧
    Ev.objUpdate q ∈ (objLoop [j, c, q, r] wt).tr ∧
    Ev.objUpdate r ∈ (objLoop [j, c, q, r] wt).tr := by
  have hjd : (getObj wt j).disposed = false := by rw [hgj]
  have hjp : (getObj wt j).prog = [Cmd.addObject q [Cmd.addObject r [] rup] qup] := by
    rw [hgj]
  have hjrun := runCmds_addTwo q r qup rup hs
  have htr0 : (objLoop [j, c, q, r] wt).tr
      = Ev.objUpdate j :: [Ev.objInit q, Ev.objInit r]
        ++ (objLoop [c, q, r]
              (addObjWorld r rup { st with addedObjects := st.addedObjects ++ [q] }
                (addObjWorld q qup st wt))).tr := by
    rw [objLoop_cons_ok hjd (by rw [hjp, hjrun])]
    rw [hjp, hjrun]
  have hg4 : ∀ x, getObj
      (addObjWorld r rup { st with addedObjects := st.addedObjects ++ [q] }
        (addObjWorld q qup st wt)) x
      = if x = r then (⟨false, rup⟩ : ObjData)
        else if x = q then (⟨false, qup⟩ : ObjData) else getObj wt x := by
    intro x
    rw [getObj_addObjWorld, getObj_addObjWorld]
  have hgc4 : getObj
      (addObjWorld r rup { st with addedObjects := st.addedObjects ++ [q] }
        (addObjWorld q qup st wt)) c = ⟨false, cup⟩ := by
    rw [hg4 c, if_neg hcr, if_neg hcq, hgc]
  have hgq4 : getObj
      (addObjWorld r rup { st with addedObjects := st.addedObjects ++ [q] }
        (addObjWorld q qup st wt)) q = ⟨false, qup⟩ := by
    rw [hg4 q, if_neg hqr, if_pos rfl]
  have hgr4 : getObj
      (addObjWorld r rup { st with addedObjects := st.addedObjects ++ [q] }
        (addObjWorld q qup st wt)) r = ⟨false, rup⟩ := by
    rw [hg4 r, if_pos rfl]
  obtain ⟨h1, h2, h3⟩ := c5_tail_mem
    (addObjWorld r rup { st with addedObjects := st.addedObjects ++ [q] }
      (addObjWorld q qup st wt))
    { st with addedObjects := (st.addedObjects ++ [q]) ++ [r] }
    c q r cup qup rup rfl hgc4 hgq4 hgr4 hcup hqup
  refine ⟨?_, ?_, ?_⟩
  · rw [htr0]
    exact List.mem_cons_of_mem _ (List.mem_append_right _ h1)
  · rw [htr0]
    exact List.mem_cons_of_mem _ (List.mem_append_right _ h2)
  · rw [htr0]
    exact List.mem_cons_of_mem _ (List.mem_append_right _ h3)

/-- C5: deferred activation.  In pass N, the controller's update adds
object `c`, object `j`'s update adds `q`, and `q`'s initialization adds
`r` as a side effect.  None of `c`, `q`, `r` receives an update call
during pass N; after the pass they sit on the active list behind `j`;
and in pass N+1 each of them does receive an update call. -/
theorem C5_deferred_activation (w : World) (s : Scene) (j c q r : Nat)
    (cup qup rup : List Cmd)
    (hs : w.scene = some s) (hobjs : s.objects = [j]) (hbuf : s.addedObjects = [])
    (hctrl : s.ctrlUpdateProg = [Cmd.addObject c [] cup])
    (hjlive : (getObj w j).disposed = false)
    (hj : (getObj w j).prog = [Cmd.addObject q [Cmd.addObject r [] rup] qup])
    (hcup : inertList cup = true) (hqup : inertList qup = true)
    (hcj : c ≠ j) (hqj : q ≠ j) (hrj : r ≠ j)
    (hcq : c ≠ q) (hcr : c ≠ r) (hqr : q ≠ r) :
    (managerUpdateWithDelta w).panic = none ∧
    Ev.objUpdate c ∉ (managerUpdateWithDelta w).tr ∧
    Ev.objUpdate q ∉ (managerUpdateWithDelta w).tr ∧
    Ev.objUpdate r ∉ (managerUpdateWithDelta w).tr ∧
    (∃ s6, (managerUpdateWithDelta w).w.scene = some s6 ∧
      s6.objects = [j, c, q, r]) ∧
    Ev.objUpdate c ∈ (managerUpdateWithDelta (managerUpdateWithDelta w).w).tr ∧
    Ev.objUpdate q ∈ (managerUpdateWithDelta (managerUpdateWithDelta w).w).tr ∧
    Ev.objUpdate r ∈ (managerUpdateWithDelta (managerUpdateWithDelta w).w).tr := by
  -- ===== pass N =====
  have hsp : (passWorld s w).scene = some (c5S0 s) := rfl
  have hctrlrun : runCmds (c5S0 s).ctrlUpdateProg (passWorld s w)
      = ⟨addObjWorld c cup (c5S0 s) (passWorld s w), [Ev.objInit c], none⟩ := by
    rw [show (c5S0 s).ctrlUpdateProg = [Cmd.addObject c [] cup] from hctrl]
    exact runCmds_addOne c cup hsp
  have hcp : (runCmds (c5S0 s).ctrlUpdateProg (passWorld s w)).panic = none := by
    rw [hctrlrun]
  have hctr : (runCmds (c5S0 s).ctrlUpdateProg (passWorld s w)).tr = [Ev.objInit c] := by
    rw [hctrlrun]
  have hcw : (runCmds (c5S0 s).ctrlUpdateProg (passWorld s w)).w
      = addObjWorld c cup (c5S0 s) (passWorld s w) := by
    rw [hctrlrun]
  have hs1 : (runCmds (c5S0 s).ctrlUpdateProg (passWorld s w)).w.scene
      = some (c5S1 s c) := by
    rw [hctrlrun]
    rfl
  -- object j runs and adds q, whose init adds r
  have hgj : getObj (runCmds (c5S0 s).ctrlUpdateProg (passWorld s w)).w j
      = getObj w j := by
    rw [hcw, getObj_addObjWorld, if_neg (fun h => hcj h.symm), getObj_passWorld]
  have hjd1 : (getObj (runCmds (c5S0 s).ctrlUpdateProg (passWorld s w)).w j).disposed
      = false := by
    rw [hgj]; exact hjlive
  have hjp1 : (getObj (runCmds (c5S0 s).ctrlUpdateProg (passWorld s w)).w j).prog
      = [Cmd.addObject q [Cmd.addObject r [] rup] qup] := by
    rw [hgj]; exact hj
  have hjrun : runCmds [Cmd.addObject q [Cmd.addObject r [] rup] qup]
      (runCmds (c5S0 s).ctrlUpdateProg (passWorld s w)).w
      = ⟨addObjWorld r rup (c5S1q s c q)
           (addObjWorld q qup (c5S1 s c)
             (runCmds (c5S0 s).ctrlUpdateProg (passWorld s w)).w),
         [Ev.objInit q, Ev.objInit r], none⟩ :=
    runCmds_addTwo q r qup rup hs1
  have hloopN : objLoop [j] (runCmds (c5S0 s).ctrlUpdateProg (passWorld s w)).w
      = ⟨addObjWorld r rup (c5S1q s c q)
           (addObjWorld q qup (c5S1 s c)
             (runCmds (c5S0 s).ctrlUpdateProg (passWorld s w)).w),
         [j], [Ev.objUpdate j, Ev.objInit q, Ev.objInit r], none⟩ := by
    rw [objLoop_cons_ok hjd1 (by rw [hjp1, hjrun])]
    rw [hjp1, hjrun]
    rfl
  have hlw : (objLoop [j] (runCmds (c5S0 s).ctrlUpdateProg (passWorld s w)).w).w
      = addObjWorld r rup (c5S1q s c q)
          (addObjWorld q qup (c5S1 s c)
            (runCmds (c5S0 s).ctrlUpdateProg (passWorld s w)).w) := by
    rw [hloopN]
  have hlkept : (objLoop [j] (runCmds (c5S0 s).ctrlUpdateProg (passWorld s w)).w).kept
      = [j] := by
    rw [hloopN]
  have hltr : (objLoop [j] (runCmds (c5S0 s).ctrlUpdateProg (passWorld s w)).w).tr
      = [Ev.objUpdate j, Ev.objInit q, Ev.objInit r] := by
    rw [hloopN]
  have hlp : (objLoop [j] (runCmds (c5S0 s).ctrlUpdateProg (passWorld s w)).w).panic
      = none := by
    rw [hloopN]
  have h2 : (objLoop (c5S1 s c).objects
      (runCmds (c5S0 s).ctrlUpdateProg (passWorld s w)).w).panic = none := by
    rw [show (c5S1 s c).objects = [j] from hobjs]
    exact hlp
  have hs2 : (objLoop (c5S1 s c).objects
      (runCmds (c5S0 s).ctrlUpdateProg (passWorld s w)).w).w.scene
      = some (c5S2 s c q r) := by
    rw [show (c5S1 s c).objects = [j] from hobjs, hlw]
    rfl
  have himpl := sceneUpdateImpl_eq (passWorld s w) (c5S0 s) (c5S1 s c) (c5S2 s c q r)
    hsp hcp hs1 h2 hs2
  have himplp : (sceneUpdateImpl (passWorld s w)).panic = none := by rw [himpl]
  have hbN := sceneUpdateWithDelta_ok hs himplp
  have hmuN : managerUpdateWithDelta w = sceneUpdateWithDelta w := rfl
  have hpanicN : (managerUpdateWithDelta w).panic = none := by rw [hmuN, hbN]
  have hbTr : (managerUpdateWithDelta w).tr = (sceneUpdateImpl (passWorld s w)).tr := by
    rw [hmuN, hbN]
  have himplTr : (sceneUpdateImpl (passWorld s w)).tr
      = [Ev.ctrlUpdate s.gen, Ev.objInit c, Ev.objUpdate j, Ev.objInit q,
         Ev.objInit r, Ev.drawerUpdate s.gen, Ev.flush s.gen] := by
    rw [himpl, hctr, show (c5S1 s c).objects = [j] from hobjs, hltr]
    rfl
  have hTrN := hbTr.trans himplTr
  have hnotc : Ev.objUpdate c ∉ (managerUpdateWithDelta w).tr := by
    rw [hTrN]; simp [hcj]
  have hnotq : Ev.objUpdate q ∉ (managerUpdateWithDelta w).tr := by
    rw [hTrN]; simp [hqj]
  have hnotr : Ev.objUpdate r ∉ (managerUpdateWithDelta w).tr := by
    rw [hTrN]; simp [hrj]
  -- the world after pass N
  have hbW : (managerUpdateWithDelta w).w
      = { (sceneUpdateImpl (passWorld s w)).w with
            scene := (sceneUpdateImpl (passWorld s w)).w.scene.map
              fun s' => { s' with insideUpdate := false } } := by
    rw [hmuN, hbN]
  have himplW : (sceneUpdateImpl (passWorld s w)).w
      = { addObjWorld r rup (c5S1q s c q)
            (addObjWorld q qup (c5S1 s c)
              (addObjWorld c cup (c5S0 s) (passWorld s w))) with
          scene := some { c5S2 s c q r with
            objects := [j] ++ (c5S2 s c q r).addedObjects
            addedObjects := []
            drawer := (c5S2 s c q r).drawer.update } } := by
    rw [himpl, show (c5S1 s c).objects = [j] from hobjs, hlw, hlkept, hcw]
  have hw1 : (managerUpdateWithDelta w).w
      = { addObjWorld r rup (c5S1q s c q)
            (addObjWorld q qup (c5S1 s c)
              (addObjWorld c cup (c5S0 s) (passWorld s w))) with
          scene := some (c5S6 s j c q r) } := by
    rw [hbW, himplW]
    rfl
  have hw1scene : (managerUpdateWithDelta w).w.scene = some (c5S6 s j c q r) := by
    rw [hw1]
  have hobjs6 : (c5S6 s j c q r).objects = [j, c, q, r] := by
    simp [c5S6, hbuf]
  have hgetN : ∀ x, getObj (managerUpdateWithDelta w).w x
      = if x = r then (⟨false, rup⟩ : ObjData)
        else if x = q then (⟨false, qup⟩ : ObjData)
        else if x = c then (⟨false, cup⟩ : ObjData) else getObj w x := by
    intro x
    have h0 : getObj (managerUpdateWithDelta w).w x
        = getObj (addObjWorld r rup (c5S1q s c q)
            (addObjWorld q qup (c5S1 s c)
              (addObjWorld c cup (c5S0 s) (passWorld s w)))) x := by
      rw [hw1]
      rfl
    rw [h0, getObj_addObjWorld, getObj_addObjWorld, getObj_addObjWorld, getObj_passWorld]
  -- ===== pass N+1 =====
  have hsp2 : (passWorld (c5S6 s j c q r) (managerUpdateWithDelta w).w).scene
      = some (c5S0 (c5S6 s j c q r)) := rfl
  have hctrl2 : (c5S0 (c5S6 s j c q r)).ctrlUpdateProg = [Cmd.addObject c [] cup] :=
    hctrl
  have hctrlrun2 : runCmds (c5S0 (c5S6 s j c q r)).ctrlUpdateProg
      (passWorld (c5S6 s j c q r) (managerUpdateWithDelta w).w)
      = ⟨addObjWorld c cup (c5S0 (c5S6 s j c q r))
           (passWorld (c5S6 s j c q r) (managerUpdateWithDelta w).w),
         [Ev.objInit c], none⟩ := by
    rw [hctrl2]
    exact runCmds_addOne c cup hsp2
  have hcp2 : (runCmds (c5S0 (c5S6 s j c q r)).ctrlUpdateProg
      (passWorld (c5S6 s j c q r) (managerUpdateWithDelta w).w)).panic = none := by
    rw [hctrlrun2]
  have hcw2 : (runCmds (c5S0 (c5S6 s j c q r)).ctrlUpdateProg
      (passWorld (c5S6 s j c q r) (managerUpdateWithDelta w).w)).w
      = addObjWorld c cup (c5S0 (c5S6 s j c q r))
          (passWorld (c5S6 s j c q r) (managerUpdateWithDelta w).w) := by
    rw [hctrlrun2]
  have hs12 : (runCmds (c5S0 (c5S6 s j c q r)).ctrlUpdateProg
      (passWorld (c5S6 s j c q r) (managerUpdateWithDelta w).w)).w.scene
      = some (c5S1 (c5S6 s j c q r) c) := by
    rw [hctrlrun2]
    rfl
  have hg2 : ∀ x, getObj (runCmds (c5S0 (c5S6 s j c q r)).ctrlUpdateProg
      (passWorld (c5S6 s j c q r) (managerUpdateWithDelta w).w)).w x
      = if x = c then (⟨false, cup⟩ : ObjData)
        else getObj (managerUpdateWithDelta w).w x := by
    intro x
    rw [hcw2, getObj_addObjWorld, getObj_passWorld]
  have hgj2 : getObj (runCmds (c5S0 (c5S6 s j c q r)).ctrlUpdateProg
      (passWorld (c5S6 s j c q r) (managerUpdateWithDelta w).w)).w j
      = ⟨false, [Cmd.addObject q [Cmd.addObject r [] rup] qup]⟩ := by
    rw [hg2 j, if_neg (fun h => hcj h.symm), hgetN j,
      if_neg (fun h => hrj h.symm), if_neg (fun h => hqj h.symm),
      if_neg (fun h => hcj h.symm), ← hjlive, ← hj]
  have hgc2 : getObj (runCmds (c5S0 (c5S6 s j c q r)).ctrlUpdateProg
      (passWorld (c5S6 s j c q r) (managerUpdateWithDelta w).w)).w c
      = ⟨false, cup⟩ := by
    rw [hg2 c, if_pos rfl]
  have hgq2 : getObj (runCmds (c5S0 (c5S6 s j c q r)).ctrlUpdateProg
      (passWorld (c5S6 s j c q r) (managerUpdateWithDelta w).w)).w q
      = ⟨false, qup⟩ := by
    rw [hg2 q, if_neg (fun h => hcq h.symm), hgetN q, if_neg hqr, if_pos rfl]
  have hgr2 : getObj (runCmds (c5S0 (c5S6 s j c q r)).ctrlUpdateProg
      (passWorld (c5S6 s j c q r) (managerUpdateWithDelta w).w)).w r
      = ⟨false, rup⟩ := by
    rw [hg2 r, if_neg (fun h => hcr h.symm), hgetN r, if_pos rfl]
  obtain ⟨hmc, hmq, hmr⟩ := c5_pass2_loop_mem
    (runCmds (c5S0 (c5S6 s j c q r)).ctrlUpdateProg
      (passWorld (c5S6 s j c q r) (managerUpdateWithDelta w).w)).w
    (c5S1 (c5S6 s j c q r) c) j c q r cup qup rup
    hs12 hgj2 hgc2 hgq2 hgr2 hcup hqup hcq hcr hqr
  have hin1 : (c5S1 (c5S6 s j c q r) c).insideUpdate = true := rfl
  have hsnapEq : (c5S1 (c5S6 s j c q r) c).objects = [j, c, q, r] := hobjs6
  have hfinc : Ev.objUpdate c ∈ (managerUpdateWithDelta (managerUpdateWithDelta w).w).tr :=
    impl_tr_mem_manager _ (c5S6 s j c q r) _ hw1scene
      (loop_tr_mem_impl _ (c5S0 (c5S6 s j c q r)) (c5S1 (c5S6 s j c q r) c) _
        hsp2 hcp2 hs12 hin1 (by rw [hsnapEq]; exact hmc))
  have hfinq : Ev.objUpdate q ∈ (managerUpdateWithDelta (managerUpdateWithDelta w).w).tr :=
    impl_tr_mem_manager _ (c5S6 s j c q r) _ hw1scene
      (loop_tr_mem_impl _ (c5S0 (c5S6 s j c q r)) (c5S1 (c5S6 s j c q r) c) _
        hsp2 hcp2 hs12 hin1 (by rw [hsnapEq]; exact hmq))
  have hfinr : Ev.objUpdate r ∈ (managerUpdateWithDelta (managerUpdateWithDelta w).w).tr :=
    impl_tr_mem_manager _ (c5S6 s j c q r) _ hw1scene
      (loop_tr_mem_impl _ (c5S0 (c5S6 s j c q r)) (c5S1 (c5S6 s j c q r) c) _
        hsp2 hcp2 hs12 hin1 (by rw [hsnapEq]; exact hmr))
  exact ⟨hpanicN, hnotc, hnotq, hnotr, ⟨c5S6 s j c q r, hw1scene, hobjs6⟩,
    hfinc, hfinq, hfinr⟩

/-- A concrete scene for the deferred-activation scenario: one live
object (1), a controller update that adds object 10. -/
def c5s : Scene :=
  { gen := 0, ctrlInitProg := [], ctrlUpdateProg := [Cmd.addObject 10 [] []],
    objects := [1], addedObjects := [], drawer := .simple [] false,
    insideUpdate := false }

/-- The matching world: object 1's update adds object 20, whose init in
turn adds object 30. -/
def c5w : World :=
  { scene := some c5s,
    objs := [(1, ⟨false, [Cmd.addObject 20 [Cmd.addObject 30 [] []] []]⟩)],
    gfx := [], nextGen := 1 }

theorem C5_deferred_activation_witness :
    (managerUpdateWithDelta c5w).panic = none ∧
    Ev.objUpdate 10 ∉ (managerUpdateWithDelta c5w).tr ∧
    Ev.objUpdate 20 ∉ (managerUpdateWithDelta c5w).tr ∧
    Ev.objUpdate 30 ∉ (managerUpdateWithDelta c5w).tr ∧
    (∃ s6, (managerUpdateWithDelta c5w).w.scene = some s6 ∧
      s6.objects = [1, 10, 20, 30]) ∧
    Ev.objUpdate 10 ∈ (managerUpdateWithDelta (managerUpdateWithDelta c5w).w).tr ∧
    Ev.objUpdate 20 ∈ (managerUpdateWithDelta (managerUpdateWithDelta c5w).w).tr ∧
    Ev.objUpdate 30 ∈ (managerUpdateWithDelta (managerUpdateWithDelta c5w).w).tr :=
  C5_deferred_activation c5w c5s 1 10 20 30 [] [] []
    rfl rfl rfl rfl rfl rfl rfl rfl
    (by decide) (by decide) (by decide) (by decide) (by decide) (by decide)

end Gscene
